import Mathlib

/-!
# eacarsoy.com: navigation highlighter and slideshow controller

A shallow embedding of `src/js/script.js` and `src/js/slideshow.js`.

Modelling conventions.

* A JavaScript string is a `List Char`; literals are written `"...".toList`.
* For `script.js`, a nav link is its `href` and `aria-current` attributes.
* For `slideshow.js`, the document is the list of its elements in document
  order. An element is identified by its position and carries the position of
  its parent, whether it is an `img`, and the attributes the script reads and
  writes (`class`, `style.display`, `src`, `data-src`). The script never adds,
  removes or moves an element. A NodeList is a list of positions; the queries
  (`querySelectorAll`, `querySelector`) are evaluated on the document as it is
  when they run, by descent and class token, so wrappers, slides and dots may
  be nested in one another or be the same element.
* Slide numbers are integers (`Int`): the handlers of `slideshow.js` only pass
  `-1`, `1` and `dotIndex + 1`.
* A URL is the string written in the markup (the `src` getter's resolution
  against the document base is not modelled).
* `slideIndices` is a list; a write beyond its length, which in JavaScript
  grows the array, is not represented.
* An uncaught `TypeError` (a property read on `undefined`) ends the running
  handler; the mutations made before it stay. `Outcome.typeError` carries the
  state at the throw.
-/

namespace Eacarsoy

/-- A JavaScript string, as its list of characters. -/
abbrev Str := List Char

/-! ## `src/js/script.js` -/

/-- A `nav a` element: its `href` attribute (`none` when absent, where
`getAttribute` returns `null`) and its `aria-current` attribute. -/
structure NavLink where
  href : Option Str
  ariaCurrent : Option Str
deriving DecidableEq, Repr

/-- Line 6: `pathname.split('/').filter(segment => segment !== '')`. -/
def pathSegments (pathname : Str) : List Str :=
  (pathname.splitOn '/').filter (fun segment => segment ≠ [])

/-- Line 7: `pathSegments.pop() || 'index.html'`. `pop()` gives the last
segment, or `undefined` on an empty array; `undefined` and the empty string
are falsy. -/
def currentPage (pathname : Str) : Str :=
  match (pathSegments pathname).getLast? with
  | some segment => if segment = [] then "index.html".toList else segment
  | none => "index.html".toList

/-- Lines 16-20: the three-way comparison of a link's `href` with the page
name. A `null` href is strictly equal to no string. -/
def matchesPage (href : Option Str) (page : Str) : Bool :=
  href == some page ||
  href == some (page ++ ".html".toList) ||
  (page == [] && href == some "index.html".toList)

/-- Lines 9-23, the body of `navLinks.forEach`: the attribute is removed,
then set to `page` when the href matches. -/
def highlightLink (page : Str) (link : NavLink) : NavLink :=
  let link := { link with ariaCurrent := none }
  if matchesPage link.href page then { link with ariaCurrent := some "page".toList }
  else link

/-- Lines 2-24: the `DOMContentLoaded` handler of `script.js`, from the
location's pathname and the `nav a` links to the links afterwards. -/
def highlightNav (pathname : Str) (navLinks : List NavLink) : List NavLink :=
  navLinks.map (highlightLink (currentPage pathname))

/-! ## `src/js/slideshow.js` -/

/-- An element of the document: the position of its parent element (`none` for
a root; elements are listed in document order, so a parent stands before its
children), whether it is an `img`, and the attributes the script reads and
writes: `class`, `style.display`, `src` and `data-src` (`none` when absent). -/
structure Element where
  parent : Option Nat
  isImg : Bool
  className : Str
  display : Str
  src : Str
  dataSrc : Option Str
deriving DecidableEq, Repr

/-- The elements of the document in document order; an element is identified
by its position. -/
abbrev Document := List Element

/-- The state the script works on: the document, the static NodeList
`slideshows` of line 7 (positions of the wrappers), the array `slideIndices` of
line 8, the observers registered at line 127 (the position of the wrapper in
`slideshows` with the NodeList `slides` its callback has captured at line 91),
and the sources requested through throwaway `Image` objects (lines 79-80),
oldest first. -/
structure Page where
  doc : Document
  slideshows : List Nat
  slideIndices : List Int
  observed : List (Nat × List Nat)
  preloads : List Str
deriving DecidableEq, Repr

/-- How a handler ends: normally, or by an uncaught `TypeError`; either way
with the state it leaves. -/
inductive Outcome where
  | ok (page : Page)
  | typeError (page : Page)
deriving DecidableEq, Repr

/-- The state a handler leaves, however it ended. -/
def Outcome.page : Outcome → Page
  | .ok p => p
  | .typeError p => p

/-- Whether the handler ended without an error. -/
def Outcome.isOk : Outcome → Bool
  | .ok _ => true
  | .typeError _ => false

/-- ASCII whitespace, which separates the tokens of a `class` attribute. -/
def isAsciiWhitespace (c : Char) : Bool :=
  c == ' ' || c == '\t' || c == '\n' || c == '\x0c' || c == '\r'

/-- The tokens of a class string (`classList`). -/
def classList (className : Str) : List Str :=
  (className.splitOnP isAsciiWhitespace).filter (fun token => token ≠ [])

/-- Whether the element carries the class, as a class selector asks (names
are compared as written, as in a document in standards mode). -/
def Element.hasClass (e : Element) (name : Str) : Bool :=
  decide (name ∈ classList e.className)

/-- The selector `.slideshow-wrapper`. -/
def isWrapper (e : Element) : Bool := e.hasClass "slideshow-wrapper".toList

/-- The selector `.slide`. -/
def isSlide (e : Element) : Bool := e.hasClass "slide".toList

/-- The selector `.dot`. -/
def isDot (e : Element) : Bool := e.hasClass "dot".toList

/-- The selector `img[data-src]`. -/
def isPendingImg (e : Element) : Bool := e.isImg && e.dataSrc.isSome

/-- The parent of the element at position `k`. -/
def parentOf (doc : Document) (k : Nat) : Option Nat :=
  (doc[k]?).bind Element.parent

/-- Whether `root` is reached from `k` by at most `fuel` steps to the parent.
A parent position that is not before the element is read as no parent. -/
def descends (doc : Document) (root : Nat) : Nat → Nat → Bool
  | 0, _ => false
  | fuel + 1, k =>
    match parentOf doc k with
    | some q => decide (q < k) && (q == root || descends doc root fuel q)
    | none => false

/-- Whether the element at `k` is a descendant of the element at `root` (each
step to the parent goes to an earlier position, so `k` steps are enough). -/
def isDescendant (doc : Document) (root k : Nat) : Bool :=
  descends doc root k k

/-- Whether the element at position `k` matches the selector. -/
def selects (doc : Document) (sel : Element → Bool) (k : Nat) : Bool :=
  match doc[k]? with
  | some e => sel e
  | none => false

/-- The NodeList of `element.querySelectorAll(selector)`: the descendants of
the element at `root` that match, in document order. -/
def querySelectorAll (doc : Document) (root : Nat) (sel : Element → Bool) : List Nat :=
  (List.range doc.length).filter (fun k => isDescendant doc root k && selects doc sel k)

/-- The result of `element.querySelector(selector)`: the first match. -/
def querySelector (doc : Document) (root : Nat) (sel : Element → Bool) : Option Nat :=
  (querySelectorAll doc root sel).head?

/-- The NodeList of `document.querySelectorAll(selector)`. -/
def documentQuerySelectorAll (doc : Document) (sel : Element → Bool) : List Nat :=
  (List.range doc.length).filter (selects doc sel)

/-- The effect of `nodeList.forEach(node => ...)` when the callback rewrites the
node by `f`: the elements of the list are rewritten one after the other. -/
def forEachAt (ids : List Nat) (f : Element → Element) (doc : Document) : Document :=
  ids.foldl (fun doc k => doc.modify f k) doc

/-- Lines 7-8: the state when the script has been evaluated, every index 1. -/
def initialPage (doc : Document) : Page :=
  { doc := doc,
    slideshows := documentQuerySelectorAll doc isWrapper,
    slideIndices := List.replicate (documentQuerySelectorAll doc isWrapper).length 1,
    observed := [],
    preloads := [] }

/-- The class fragment the script appends and removes. -/
def activeDot : Str := " active-dot".toList

/-- The 1x1 placeholder of line 98. -/
def placeholder : Str :=
  "data:image/gif;base64,R0lGODlhAQABAAAAACH5BAEKAAEALAAAAAABAAEAAAICTAEAOw==".toList

/-- `String.prototype.replace` with a string pattern: the first occurrence of
`pat` is replaced (the replacements used here contain no `$`). -/
def replaceFirst (pat rep : Str) : Str → Str
  | [] => if pat = [] then rep else []
  | c :: cs =>
    if pat.isPrefixOf (c :: cs) then rep ++ (c :: cs).drop pat.length
    else c :: replaceFirst pat rep cs

/-- Array or NodeList indexing `xs[j]` with a JavaScript number: `undefined`
(`none`) below 0 and from the length on. -/
def at? {α : Type} (xs : List α) (j : Int) : Option α :=
  if j < 0 then none else xs[j.toNat]?

/-- Line 54: `slide.style.display = "none"`. -/
def hide (e : Element) : Element := { e with display := "none".toList }

/-- Line 59: `dot.className = dot.className.replace(" active-dot", "")`. -/
def resetDot (e : Element) : Element :=
  { e with className := replaceFirst activeDot [] e.className }

/-- Line 63: `style.display = "block"`. -/
def unhide (e : Element) : Element := { e with display := "block".toList }

/-- Line 64: `className += " active-dot"`. -/
def lightDot (e : Element) : Element := { e with className := e.className ++ activeDot }

/-- Lines 70-71 and 113-114: `img.src = img.dataset.src;
img.removeAttribute('data-src')`, on an element with a `data-src` attribute. -/
def promote (e : Element) : Element :=
  match e.dataSrc with
  | some pendingSrc => { e with src := pendingSrc, dataSrc := none }
  | none => e

/-- Lines 68-72 and 111-115 on a slide: the first `img[data-src]` in it, if
there is one, is promoted. -/
def promoteIn (doc : Document) (slide : Nat) : Document :=
  match querySelector doc slide isPendingImg with
  | some img => doc.modify promote img
  | none => doc

/-- Lines 77-81: the source requested for the slide handed in, none when
`querySelector('img[data-src]')` finds nothing. -/
def preloadRequest (doc : Document) (nextSlide : Nat) : List Str :=
  match querySelector doc nextSlide isPendingImg with
  | some nextImg => ((doc[nextImg]?).bind Element.dataSrc).toList
  | none => []

/-- Lines 43-82, `showSlides(n, slideshowIndex)`. -/
def showSlides (p : Page) (n : Int) (slideshowIndex : Nat) : Outcome :=
  match p.slideshows[slideshowIndex]? with
  | none => .typeError p                                        -- l.45 on undefined
  | some slideshow =>
    let slides := querySelectorAll p.doc slideshow isSlide      -- l.45
    let dots := querySelectorAll p.doc slideshow isDot          -- l.46
    let len : Int := slides.length
    -- l.49-50
    let slideIndices := if n > len then p.slideIndices.set slideshowIndex 1 else p.slideIndices
    let slideIndices := if n < 1 then slideIndices.set slideshowIndex len else slideIndices
    -- l.53-55
    let doc := forEachAt slides hide p.doc
    -- l.58-60
    let doc := forEachAt dots resetDot doc
    let leave := fun (doc : Document) (preloads : List Str) =>
      ({ p with doc := doc, slideIndices := slideIndices, preloads := preloads } : Page)
    match slideIndices[slideshowIndex]? with
    | none => .typeError (leave doc p.preloads)
    | some cur =>
      -- l.63
      match at? slides (cur - 1) with
      | none => .typeError (leave doc p.preloads)
      | some slide =>
        let doc := doc.modify unhide slide
        -- l.64
        match at? dots (cur - 1) with
        | none => .typeError (leave doc p.preloads)
        | some dot =>
          let doc := doc.modify lightDot dot
          -- l.67-72
          match at? slides (cur - 1) with
          | none => .typeError (leave doc p.preloads)
          | some currentSlide =>
            let doc := promoteIn doc currentSlide
            -- l.75: `%` truncates; 0 and NaN (division by 0) are falsy
            let r := Int.tmod cur len
            let nextIndex := if len = 0 ∨ r = 0 then len else r
            -- l.76-81
            match at? slides (nextIndex - 1) with
            | none => .typeError (leave doc p.preloads)
            | some nextSlide =>
              .ok (leave doc (p.preloads ++ preloadRequest doc nextSlide))

/-- Lines 23-25, `changeSlide(n, slideshowIndex)`. `slideIndices` has the
length of `slideshows` (line 8); for a position beyond both, JavaScript stores
`NaN` there and `showSlides` throws on the undefined wrapper: the model reports
the throw and does not represent the `NaN` entry. -/
def changeSlide (p : Page) (n : Int) (slideshowIndex : Nat) : Outcome :=
  match p.slideIndices[slideshowIndex]? with
  | none => .typeError p
  | some cur =>
    showSlides { p with slideIndices := p.slideIndices.set slideshowIndex (cur + n) } (cur + n)
      slideshowIndex

/-- Lines 32-34, `currentSlide(n, slideshowIndex)`. -/
def currentSlide (p : Page) (n : Int) (slideshowIndex : Nat) : Outcome :=
  showSlides { p with slideIndices := p.slideIndices.set slideshowIndex n } n slideshowIndex

/-- Lines 97-98: `img.dataset.src = img.src; img.src = <placeholder>`. -/
def deferImg (e : Element) : Element :=
  { e with dataSrc := some e.src, src := placeholder }

/-- Lines 94-100, the callback of `slides.forEach` on one slide: the first
`img` in it is deferred, from the second slide on. -/
def deferSlide (doc : Document) (index : Nat) (slide : Nat) : Document :=
  match querySelector doc slide Element.isImg with
  | some img => if index > 0 then doc.modify deferImg img else doc
  | none => doc

/-- Lines 90-128, `setupLazyLoading(slideshow)`, on the wrapper at the given
position of `slideshows`: the images are deferred slide by slide, and the
observer is registered with the NodeList `slides` of line 91. -/
def setupLazyLoading (p : Page) (slideshowIndex : Nat) : Page :=
  match p.slideshows[slideshowIndex]? with
  | none => p
  | some slideshow =>
    let slides := querySelectorAll p.doc slideshow isSlide
    let doc := slides.enum.foldl (fun doc entry => deferSlide doc entry.1 entry.2) p.doc
    { p with doc := doc, observed := p.observed ++ [(slideshowIndex, slides)] }

/-- Lines 13-14, the body of the `forEach` of the `DOMContentLoaded` handler
for one wrapper: the initial render, then the lazy-loading setup. -/
def initSlideshow (p : Page) (index : Nat) : Outcome :=
  match showSlides p 1 index with
  | .ok p1 => .ok (setupLazyLoading p1 index)
  | .typeError p1 => .typeError p1

/-- Lines 11-16, the `DOMContentLoaded` handler, from the wrapper at position
`index` on: `forEach` ends at the first wrapper whose callback throws. -/
def initFrom (p : Page) (index : Nat) : Nat → Outcome
  | 0 => .ok p
  | todo + 1 =>
    match initSlideshow p index with
    | .ok p1 => initFrom p1 (index + 1) todo
    | .typeError p1 => .typeError p1

/-- Lines 11-16, the `DOMContentLoaded` handler. -/
def domContentLoaded (p : Page) : Outcome :=
  initFrom p 0 p.slideshows.length

/-- Lines 105-119, the observer's callback for an intersecting entry of the
wrapper at the given position of `slideshows`, with the NodeList `slides`
captured at line 91: the first pending image of the current slide is promoted.
Without an observer for the wrapper there is no callback. -/
def onIntersect (p : Page) (slideshowIndex : Nat) : Outcome :=
  match p.observed.lookup slideshowIndex with
  | none => .ok p
  | some slides =>
    match p.slideIndices[slideshowIndex]? with
    | none => .typeError p
    | some cur =>
      -- l.109-111
      match at? slides (cur - 1) with
      | none => .typeError p
      | some currentSlide => .ok { p with doc := promoteIn p.doc currentSlide }

/-- An event after the script has been evaluated, with the position of the
wrapper in `slideshows`: a click on `.prev` / `.next` (`change (-1)`,
`change 1`, lines 134-140), a click on a dot (`jump (dotIndex + 1)`, lines
145-147), or the wrapper scrolling into view (`intersect`, lines 104-120; the
model lets it happen any number of times). -/
inductive Event where
  | change (n : Int) (slideshowIndex : Nat)
  | jump (n : Int) (slideshowIndex : Nat)
  | intersect (slideshowIndex : Nat)
deriving DecidableEq, Repr

/-- The state after the handler of one event has run. -/
def step (p : Page) : Event → Page
  | .change n i => (changeSlide p n i).page
  | .jump n i => (currentSlide p n i).page
  | .intersect i => (onIntersect p i).page

/-- The state after a sequence of events, each handled in turn. -/
def run (p : Page) (events : List Event) : Page :=
  events.foldl step p

/-- Whether the element at the position carries the class `active-dot`. -/
def isActive (doc : Document) (k : Nat) : Bool :=
  selects doc (fun e => e.hasClass "active-dot".toList) k

/-- Whether the element at the position is shown (`display: block`). -/
def isShown (doc : Document) (k : Nat) : Bool :=
  selects doc (fun e => e.display == "block".toList) k

/-- Whether the element at the position is hidden (`display: none`). -/
def isHidden (doc : Document) (k : Nat) : Bool :=
  selects doc (fun e => e.display == "none".toList) k

/-! ## Definitions used in the statements and proofs -/

/-- The class string does not contain `active-dot` anywhere. -/
def Clean (className : Str) : Prop := ¬ "active-dot".toList <:+: className

instance (className : Str) : Decidable (Clean className) := by
  unfold Clean; infer_instance

/-- What the script never changes on an element. -/
def shape (e : Element) : Option Nat × Bool := (e.parent, e.isImg)

/-- The two documents have the same elements up to the attributes the script
writes. -/
def Similar (doc doc1 : Document) : Prop := doc1.map shape = doc.map shape

/-- The index lines 49-50 leave, from the argument, the slide count and the
index before. -/
def wrapIndex (n len cur : Int) : Int :=
  if n < 1 then len else if n > len then 1 else cur

/-- The document a completed render leaves: lines 53-72 with the NodeLists
`slides` and `dots` of lines 45-46, the current slide and its dot. -/
def renderDoc (doc : Document) (slides dots : List Nat) (slide dot : Nat) : Document :=
  promoteIn (((forEachAt dots resetDot (forEachAt slides hide doc)).modify unhide slide).modify
    lightDot dot) slide

/-- The second document is the first one with attributes rewritten on
descendants of `w` only. -/
def ChangedOnlyUnder (doc doc1 : Document) (w : Nat) : Prop :=
  Similar doc doc1 ∧ ∀ j, isDescendant doc w j = false → doc1[j]? = doc[j]?

/-- Line 59 handles the class string: once the first ` active-dot` is removed,
`active-dot` occurs nowhere in it and its classes are those it had, apart
from `active-dot`. -/
def DotReady (className : Str) : Prop :=
  Clean (replaceFirst activeDot [] className) ∧
  classList (replaceFirst activeDot [] className) =
    (classList className).filter (fun token => token ≠ "active-dot".toList)

instance (className : Str) : Decidable (DotReady className) := by
  unfold DotReady; infer_instance

/-- The class string of the element at the position. -/
def classAt (doc : Document) (k : Nat) : Str := ((doc[k]?).map Element.className).getD []

/-- The `src` of the element at the position. -/
def srcAt (doc : Document) (k : Nat) : Str := ((doc[k]?).map Element.src).getD []

/-- The `data-src` attribute of the element at the position. -/
def dataSrcAt (doc : Document) (k : Nat) : Option Str := (doc[k]?).bind Element.dataSrc

/-- What lines 53-72 do to the element at position `j`, with the NodeLists
`slides` and `dots`, the current slide `s`, its dot `d` and its image `g`. -/
def renderElem (slides dots : List Nat) (s d g j : Nat) (e : Element) : Element :=
  let e := if j ∈ slides then hide e else e
  let e := if j ∈ dots then resetDot e else e
  let e := if j = s then unhide e else e
  let e := if j = d then lightDot e else e
  if j = g then promote e else e

/-- Each slide of `slides` has exactly one image, the one at the same place
of `images`, and no two slides have the same image. -/
def OneImageEach (doc : Document) (slides images : List Nat) : Prop :=
  slides.map (fun s => querySelectorAll doc s Element.isImg) = images.map (fun g => [g]) ∧
  images.Nodup

instance (doc : Document) (slides images : List Nat) : Decidable (OneImageEach doc slides images) := by
  unfold OneImageEach; infer_instance

/-- The image at `g` shows the source it has in the markup `doc0` and has no
pending source. -/
def Loaded (doc0 doc : Document) (g : Nat) : Prop :=
  srcAt doc g = srcAt doc0 g ∧ dataSrcAt doc g = none

/-- The image at `g` shows the placeholder, and its pending source is the
source it has in the markup `doc0`. -/
def Deferred (doc0 doc : Document) (g : Nat) : Prop :=
  srcAt doc g = placeholder ∧ dataSrcAt doc g = some (srcAt doc0 g)

/-- What every render, setup and callback keeps of the wrapper `w` of the
markup `doc0`: the elements and their nesting, the NodeLists of lines 45-46,
class strings on the dots that line 59 handles, and every image loaded or
deferred. -/
structure Stable (doc0 doc : Document) (w : Nat) (slides dots images : List Nat) : Prop where
  similar : Similar doc0 doc
  slides_eq : querySelectorAll doc w isSlide = slides
  dots_eq : querySelectorAll doc w isDot = dots
  ready : ∀ d ∈ dots, DotReady (classAt doc d)
  lazy : ∀ g ∈ images, Loaded doc0 doc g ∨ Deferred doc0 doc g

/-- For the wrapper at position `i` of the markup `doc0`: the page has the
wrapper `w` there, an index within the slides, the image of the current slide
loaded, what `Stable` says, and an observer callback, if any, with the NodeList
of line 45. -/
def Settled (doc0 : Document) (p : Page) (i w : Nat) (slides dots images : List Nat) : Prop :=
  p.slideshows[i]? = some w ∧ Stable doc0 p.doc w slides dots images ∧
  (∀ captured, p.observed.lookup i = some captured → captured = slides) ∧
  ∃ cur g, p.slideIndices[i]? = some cur ∧ 1 ≤ cur ∧ cur ≤ slides.length ∧
    images[(cur - 1).toNat]? = some g ∧ Loaded doc0 p.doc g

/-- The markup contract of the wrapper `w`: `slides` and `dots`
are its `.slide` and `.dot` descendants, at least one slide, as many dots as
slides, class strings on the dots that line 59 handles, one image in each
slide, the `images` in the order of the slides, no image in two slides, and no
`data-src` attribute on them. -/
structure Contract (doc : Document) (w : Nat) (slides dots images : List Nat) : Prop where
  slides_eq : querySelectorAll doc w isSlide = slides
  dots_eq : querySelectorAll doc w isDot = dots
  some_slide : 1 ≤ slides.length
  as_many : dots.length = slides.length
  ready : ∀ d ∈ dots, DotReady (classAt doc d)
  one_image : OneImageEach doc slides images
  none_pending : ∀ g ∈ images, dataSrcAt doc g = none

/-- The wrapper position an event is for. -/
def Event.target : Event → Nat
  | .change _ i => i
  | .jump _ i => i
  | .intersect i => i

/-- The lazy-loading state of the wrapper at position `i`, against the markup
`doc0`: the slides are the same elements, each with its one image; the index
lies within the slides, and the image of the slide at the index shows the
source it has in the markup and has no pending source; every image shows either
that, or the placeholder with the markup's source pending. -/
def LazyState (doc0 : Document) (q : Page) (i w : Nat) (slides images : List Nat) : Prop :=
  q.slideshows[i]? = some w ∧
  querySelectorAll q.doc w isSlide = slides ∧
  OneImageEach q.doc slides images ∧
  (∃ cur g, q.slideIndices[i]? = some cur ∧ 1 ≤ cur ∧ cur ≤ slides.length ∧
    images[(cur - 1).toNat]? = some g ∧ Loaded doc0 q.doc g) ∧
  ∀ g ∈ images, Loaded doc0 q.doc g ∨ Deferred doc0 q.doc g

/-! ## Concrete documents -/

/-- An element that is not an image, with its parent and class string. -/
def plain (parent : Option Nat) (className : String) : Element :=
  { parent := parent, isImg := false, className := className.toList, display := [],
    src := [], dataSrc := none }

/-- An image with its parent and source. -/
def image (parent : Nat) (src : String) : Element :=
  { parent := some parent, isImg := true, className := [], display := [],
    src := src.toList, dataSrc := none }

/-- One wrapper (position 0) with three slides (1, 3, 5), one image each
(2, 4, 6), the two buttons and three dots (9, 10, 11). -/
def gallery3 : Document :=
  [plain none "slideshow-wrapper",
   plain (some 0) "slide", image 1 "1.jpg",
   plain (some 0) "slide", image 3 "2.jpg",
   plain (some 0) "slide", image 5 "3.jpg",
   plain (some 0) "prev", plain (some 0) "next",
   plain (some 0) "dot", plain (some 0) "dot", plain (some 0) "dot"]

/-- One wrapper with four slides (1, 3, 5, 7), one image each, the two buttons
and four dots (11 to 14). -/
def gallery4 : Document :=
  [plain none "slideshow-wrapper",
   plain (some 0) "slide", image 1 "1.jpg",
   plain (some 0) "slide", image 3 "2.jpg",
   plain (some 0) "slide", image 5 "3.jpg",
   plain (some 0) "slide", image 7 "4.jpg",
   plain (some 0) "prev", plain (some 0) "next",
   plain (some 0) "dot", plain (some 0) "dot", plain (some 0) "dot", plain (some 0) "dot"]

/-- One wrapper with the two buttons, no slide and no dot. -/
def emptyShow : Document :=
  [plain none "slideshow-wrapper", plain (some 0) "prev", plain (some 0) "next"]

/-- One wrapper with two slides (1, 3) and two dots (7, 8); the first dot is
marked active in the markup, the class named first. -/
def premarked : Document :=
  [plain none "slideshow-wrapper",
   plain (some 0) "slide", image 1 "1.jpg",
   plain (some 0) "slide", image 3 "2.jpg",
   plain (some 0) "prev", plain (some 0) "next",
   plain (some 0) "active-dot dot", plain (some 0) "dot"]

/-- One wrapper with two slides and two dots (7, 8); the second dot's class
string repeats the fragment. -/
def repeated : Document :=
  [plain none "slideshow-wrapper",
   plain (some 0) "slide", image 1 "1.jpg",
   plain (some 0) "slide", image 3 "2.jpg",
   plain (some 0) "prev", plain (some 0) "next",
   plain (some 0) "dot", plain (some 0) "dot active-dot active-dot active-dot"]

/-- One wrapper with two slides and two dots (7, 8); the second dot has a
class whose name starts with `active-dot`. -/
def suffixed : Document :=
  [plain none "slideshow-wrapper",
   plain (some 0) "slide", image 1 "1.jpg",
   plain (some 0) "slide", image 3 "2.jpg",
   plain (some 0) "prev", plain (some 0) "next",
   plain (some 0) "dot", plain (some 0) "dot active-dot-x"]

/-- A wrapper (position 0) with one slide of its own (1), its buttons and one
dot (5), and in it a second wrapper (6) with one slide (7), its buttons and one
dot (11). -/
def nested : Document :=
  [plain none "slideshow-wrapper",
   plain (some 0) "slide", image 1 "1.jpg",
   plain (some 0) "prev", plain (some 0) "next",
   plain (some 0) "dot",
   plain (some 0) "slideshow-wrapper",
   plain (some 6) "slide", image 7 "2.jpg",
   plain (some 6) "prev", plain (some 6) "next",
   plain (some 6) "dot"]

/-- Two wrappers side by side (positions 0 and 9), each with two slides and
two dots. -/
def twoGalleries : Document :=
  [plain none "slideshow-wrapper",
   plain (some 0) "slide", image 1 "1.jpg",
   plain (some 0) "slide", image 3 "2.jpg",
   plain (some 0) "prev", plain (some 0) "next",
   plain (some 0) "dot", plain (some 0) "dot",
   plain none "slideshow-wrapper",
   plain (some 9) "slide", image 10 "3.jpg",
   plain (some 9) "slide", image 12 "4.jpg",
   plain (some 9) "prev", plain (some 9) "next",
   plain (some 9) "dot", plain (some 9) "dot"]

set_option maxRecDepth 100000

/-! ## Theorems: the navigation highlighter -/

/-- Splitting distributes over a separator in the middle. -/
theorem splitOnP_append_sep {α : Type} (p : α → Bool) (s t : List α) (sep : α) (hsep : p sep = true) :
    (s ++ sep :: t).splitOnP p = s.splitOnP p ++ t.splitOnP p := by
  induction s with
  | nil => simp [List.splitOnP_cons, hsep]
  | cons c s ih =>
    simp only [List.cons_append, List.splitOnP_cons, ih]
    by_cases hc : p c = true
    · simp [hc]
    · simp only [hc, if_false]
      cases h : s.splitOnP p with
      | nil => exact absurd h (List.splitOnP_ne_nil p s)
      | cons w ws => simp [List.modifyHead]

theorem pathSegments_trailing_slash (pathname : Str) :
    pathSegments (pathname ++ "/".toList) = pathSegments pathname := by
  unfold pathSegments List.splitOn
  have h := splitOnP_append_sep (fun x => x == '/') pathname [] '/' (by decide)
  have e : pathname ++ "/".toList = pathname ++ '/' :: [] := rfl
  rw [e, h]
  simp [List.filter_append]

theorem mem_pathSegments_ne_nil {pathname : Str} {s : Str} (h : s ∈ pathSegments pathname) : s ≠ [] := by
  unfold pathSegments at h
  simpa using (List.mem_filter.1 h).2

theorem currentPage_of_last (pathname s : Str) (h : (pathSegments pathname).getLast? = some s) :
    currentPage pathname = s ∧ s ≠ [] := by
  have hm : s ∈ pathSegments pathname := List.mem_of_getLast?_eq_some h
  have hne := mem_pathSegments_ne_nil hm
  unfold currentPage
  rw [h]
  simp [hne]

theorem currentPage_of_nil (pathname : Str) (h : pathSegments pathname = []) :
    currentPage pathname = "index.html".toList := by
  unfold currentPage
  rw [h]; rfl

theorem highlightLink_href (page : Str) (link : NavLink) : (highlightLink page link).href = link.href := by
  unfold highlightLink
  dsimp only
  split <;> rfl

theorem highlightLink_isCurrent (page : Str) (link : NavLink) :
    (highlightLink page link).ariaCurrent = some "page".toList ↔ matchesPage link.href page = true := by
  unfold highlightLink
  dsimp only
  split
  · simp_all
  · simp_all

theorem matchesPage_iff_of_ne_nil (href : Option Str) {page : Str} (hne : page ≠ []) :
    matchesPage href page = true ↔ href = some page ∨ href = some (page ++ ".html".toList) := by
  unfold matchesPage
  simp [hne]

/-! ## Theorems: class strings -/

theorem replaceFirst_absent (pat rep : Str) (hpat : pat ≠ []) :
    ∀ s : Str, ¬ pat <:+: s → replaceFirst pat rep s = s
  | [], _ => by simp [replaceFirst, hpat]
  | c :: cs, h => by
    have hp : ¬ pat <+: c :: cs := fun hp => h hp.isInfix
    have hcs : ¬ pat <:+: cs := fun hi => h (hi.trans (List.suffix_cons c cs).isInfix)
    simp only [replaceFirst, List.isPrefixOf_iff_prefix, hp, if_false]
    rw [replaceFirst_absent pat rep hpat cs hcs]

theorem activeDot_contains : "active-dot".toList <:+: activeDot :=
  (List.suffix_cons ' ' "active-dot".toList).isInfix

theorem clean_no_fragment {s : Str} (h : Clean s) : ¬ activeDot <:+: s :=
  fun hi => h (activeDot_contains.trans hi)

theorem replaceFirst_clean {s : Str} (h : Clean s) : replaceFirst activeDot [] s = s :=
  replaceFirst_absent activeDot [] (by decide) s (clean_no_fragment h)

theorem clean_tail {c : Char} {s : Str} (h : Clean (c :: s)) : Clean s :=
  fun hi => h (hi.trans (List.suffix_cons c s).isInfix)

/-- The fragment has no border: it cannot start inside a non-empty clean
string and end inside the fragment appended to it. -/
theorem not_prefix_append_activeDot {s : Str} (h : Clean s) (hne : s ≠ []) :
    ¬ activeDot <+: s ++ activeDot := by
  intro hp
  have hs : s <+: s ++ activeDot := List.prefix_append s activeDot
  rcases le_or_lt activeDot.length s.length with hle | hlt
  · exact clean_no_fragment h (List.prefix_of_prefix_length_le hp hs hle).isInfix
  · have hsp : s <+: activeDot := List.prefix_of_prefix_length_le hs hp hlt.le
    have hlen : activeDot.length = 11 := by decide
    have hpos : 0 < s.length := List.length_pos.2 hne
    have hst : s = activeDot.take s.length := List.prefix_iff_eq_take.1 hsp
    have hk : s.length < 11 := by omega
    generalize s.length = k at hst hpos hk
    subst hst
    interval_cases k <;> revert hp <;> decide

theorem replaceFirst_append_activeDot : ∀ {s : Str}, Clean s →
    replaceFirst activeDot [] (s ++ activeDot) = s
  | [], _ => by decide
  | c :: cs, h => by
    have hp := not_prefix_append_activeDot h (List.cons_ne_nil c cs)
    have ih := replaceFirst_append_activeDot (clean_tail h)
    simp only [List.cons_append] at hp ⊢
    simp only [replaceFirst, List.isPrefixOf_iff_prefix, hp, if_false, ih]

theorem splitOnP_head_isPrefix (q : Char → Bool) : ∀ s : Str,
    ∃ w ws, s.splitOnP q = w :: ws ∧ w <+: s
  | [] => ⟨[], [], by simp, List.nil_prefix⟩
  | c :: cs => by
    obtain ⟨w, ws, hw, hpre⟩ := splitOnP_head_isPrefix q cs
    rw [List.splitOnP_cons]
    by_cases hc : q c = true
    · exact ⟨[], cs.splitOnP q, by simp [hc], List.nil_prefix⟩
    · refine ⟨c :: w, ws, by simp [hc, hw, List.modifyHead], ?_⟩
      exact (List.prefix_cons_inj c).2 hpre

theorem infix_of_mem_splitOnP (q : Char → Bool) : ∀ (s : Str) (w : Str),
    w ∈ s.splitOnP q → w <:+: s
  | [], w, h => by
    simp at h
    subst h
    exact List.nil_infix
  | c :: cs, w, h => by
    rw [List.splitOnP_cons] at h
    have up : ∀ v : Str, v <:+: cs → v <:+: c :: cs :=
      fun v hv => hv.trans (List.suffix_cons c cs).isInfix
    by_cases hc : q c = true
    · simp only [hc, if_true, List.mem_cons] at h
      rcases h with h | h
      · subst h; exact List.nil_infix
      · exact up w (infix_of_mem_splitOnP q cs w h)
    · obtain ⟨w0, ws, hw, hpre⟩ := splitOnP_head_isPrefix q cs
      simp only [hc, hw, List.modifyHead, List.mem_cons] at h
      simp only [Bool.false_eq_true, if_false, List.mem_cons] at h
      rcases h with h | h
      · subst h
        exact ((List.prefix_cons_inj c).2 hpre).isInfix
      · exact up w (infix_of_mem_splitOnP q cs w (by rw [hw]; exact List.mem_cons_of_mem _ h))

theorem not_active_of_clean {s : Str} (h : Clean s) : "active-dot".toList ∉ classList s := by
  intro hm
  unfold classList at hm
  exact h (infix_of_mem_splitOnP _ s _ (List.mem_filter.1 hm).1)

theorem active_of_append (s : Str) : "active-dot".toList ∈ classList (s ++ activeDot) := by
  unfold classList
  have e : s ++ activeDot = s ++ ' ' :: "active-dot".toList := rfl
  rw [e, splitOnP_append_sep isAsciiWhitespace s _ ' ' (by decide)]
  have : "active-dot".toList.splitOnP isAsciiWhitespace = ["active-dot".toList] := by decide
  rw [this, List.filter_append]
  apply List.mem_append_right
  decide

/-! ## Theorems: the document, its queries and ancestors -/

theorem similar_refl (doc : Document) : Similar doc doc := rfl

theorem similar_trans {a b c : Document} (h1 : Similar a b) (h2 : Similar b c) : Similar a c := by
  unfold Similar at *
  rw [h2, h1]

theorem similar_length {doc doc1 : Document} (h : Similar doc doc1) : doc1.length = doc.length := by
  have := congrArg List.length h
  simpa using this

theorem similar_getElem? {doc doc1 : Document} (h : Similar doc doc1) (k : Nat) :
    (doc1[k]?).map shape = (doc[k]?).map shape := by
  have := congrArg (fun l => l[k]?) h
  simpa [List.getElem?_map] using this

theorem similar_parentOf {doc doc1 : Document} (h : Similar doc doc1) (k : Nat) :
    parentOf doc1 k = parentOf doc k := by
  have := similar_getElem? h k
  unfold parentOf
  cases h1 : doc1[k]? <;> cases h0 : doc[k]? <;> simp [h1, h0, shape] at this ⊢
  exact this.1

theorem similar_descends {doc doc1 : Document} (h : Similar doc doc1) (root : Nat) :
    ∀ fuel k, descends doc1 root fuel k = descends doc root fuel k
  | 0, _ => rfl
  | fuel + 1, k => by
    simp only [descends, similar_parentOf h k]
    cases parentOf doc k with
    | none => rfl
    | some q => simp only [similar_descends h root fuel q]

theorem similar_isDescendant {doc doc1 : Document} (h : Similar doc doc1) (root k : Nat) :
    isDescendant doc1 root k = isDescendant doc root k :=
  similar_descends h root k k

theorem similar_modify (doc : Document) (f : Element → Element) (k : Nat)
    (hf : ∀ e, shape (f e) = shape e) : Similar doc (doc.modify f k) := by
  unfold Similar
  apply List.ext_getElem?
  intro j
  simp only [List.getElem?_map, List.getElem?_modify]
  cases doc[j]? with
  | none => rfl
  | some e => by_cases hkj : k = j <;> simp [hkj, hf]

theorem similar_forEachAt (f : Element → Element) (hf : ∀ e, shape (f e) = shape e) :
    ∀ (ids : List Nat) (doc : Document), Similar doc (forEachAt ids f doc)
  | [], _ => rfl
  | k :: ids, doc =>
    similar_trans (similar_modify doc f k hf) (similar_forEachAt f hf ids (doc.modify f k))

/-- The elements of a list are rewritten once each, the others are kept. -/
theorem forEachAt_getElem? (f : Element → Element) :
    ∀ (ids : List Nat) (doc : Document) (j : Nat), ids.Nodup →
      (forEachAt ids f doc)[j]? = (doc[j]?).map (fun e => if j ∈ ids then f e else e)
  | [], doc, j, _ => by simp [forEachAt]
  | k :: ids, doc, j, hnd => by
    have hk : k ∉ ids := (List.nodup_cons.1 hnd).1
    have ih := forEachAt_getElem? f ids (doc.modify f k) j (List.nodup_cons.1 hnd).2
    have e : forEachAt (k :: ids) f doc = forEachAt ids f (doc.modify f k) := rfl
    rw [e, ih, List.getElem?_modify]
    cases doc[j]? with
    | none => rfl
    | some x =>
      by_cases hkj : k = j
      · subst hkj
        simp [hk]
      · have hjk : ¬ j = k := fun h => hkj h.symm
        simp [hkj, hjk]

theorem querySelectorAll_nodup (doc : Document) (root : Nat) (sel : Element → Bool) :
    (querySelectorAll doc root sel).Nodup :=
  (List.nodup_range doc.length).filter _

theorem mem_querySelectorAll {doc : Document} {root : Nat} {sel : Element → Bool} {k : Nat} :
    k ∈ querySelectorAll doc root sel ↔
      k < doc.length ∧ isDescendant doc root k = true ∧ selects doc sel k = true := by
  unfold querySelectorAll
  simp [List.mem_filter, List.mem_range]

/-- A query depends on the document through the shape and the selector's
verdicts only. -/
theorem querySelectorAll_congr {doc doc1 : Document} (h : Similar doc doc1) (root : Nat)
    (sel : Element → Bool) (hsel : ∀ k, selects doc1 sel k = selects doc sel k) :
    querySelectorAll doc1 root sel = querySelectorAll doc root sel := by
  unfold querySelectorAll
  rw [similar_length h]
  apply List.filter_congr
  intro k _
  rw [similar_isDescendant h, hsel]

theorem selects_isImg_of_similar {doc doc1 : Document} (h : Similar doc doc1) (k : Nat) :
    selects doc1 Element.isImg k = selects doc Element.isImg k := by
  have := similar_getElem? h k
  unfold selects
  cases h1 : doc1[k]? <;> cases h0 : doc[k]? <;> simp [h1, h0, shape] at this ⊢
  exact this.2

theorem querySelectorAll_isImg_of_similar {doc doc1 : Document} (h : Similar doc doc1) (root : Nat) :
    querySelectorAll doc1 root Element.isImg = querySelectorAll doc root Element.isImg :=
  querySelectorAll_congr h root _ (selects_isImg_of_similar h)

theorem descends_lt (doc : Document) (root : Nat) :
    ∀ fuel k, descends doc root fuel k = true → root < k
  | 0, _, h => by simp [descends] at h
  | fuel + 1, k, h => by
    simp only [descends] at h
    cases hp : parentOf doc k with
    | none => simp [hp] at h
    | some q =>
      simp only [hp, Bool.and_eq_true, decide_eq_true_eq, Bool.or_eq_true, beq_iff_eq] at h
      rcases h.2 with h2 | h2
      · omega
      · have := descends_lt doc root fuel q h2
        omega

theorem descends_mono (doc : Document) (root : Nat) :
    ∀ fuel k, descends doc root fuel k = true → descends doc root (fuel + 1) k = true
  | 0, _, h => by simp [descends] at h
  | fuel + 1, k, h => by
    rw [descends] at h ⊢
    cases hp : parentOf doc k with
    | none => simp [hp] at h
    | some q =>
      simp only [hp, Bool.and_eq_true, decide_eq_true_eq, Bool.or_eq_true, beq_iff_eq] at h ⊢
      refine ⟨h.1, ?_⟩
      rcases h.2 with h2 | h2
      · exact Or.inl h2
      · exact Or.inr (descends_mono doc root fuel q h2)

theorem descends_mono_le (doc : Document) (root k : Nat) {a b : Nat} (hab : a ≤ b)
    (h : descends doc root a k = true) : descends doc root b k = true := by
  induction hab with
  | refl => exact h
  | step _ ih => exact descends_mono doc root _ k ih

/-- Fuel beyond the position adds nothing. -/
theorem descends_fuel (doc : Document) (root : Nat) :
    ∀ fuel k, k ≤ fuel → descends doc root fuel k = descends doc root k k
  | 0, k, hk => by
    have : k = 0 := by omega
    subst this; rfl
  | fuel + 1, k, hk => by
    cases k with
    | zero =>
      simp only [descends]
      cases hp : parentOf doc 0 with
      | none => rfl
      | some q => simp
    | succ k =>
      simp only [descends]
      cases hp : parentOf doc (k + 1) with
      | none => rfl
      | some q =>
        by_cases hq : q < k + 1
        · have h1 := descends_fuel doc root fuel q (by omega)
          have h2 := descends_fuel doc root k q (by omega)
          simp only [hq, decide_True, Bool.true_and, h1, h2]
        · simp [hq]

/-- An element descends from `root` exactly when its parent is `root` or
descends from it. -/
theorem isDescendant_iff (doc : Document) (root k : Nat) :
    isDescendant doc root k = true ↔
      ∃ q, parentOf doc k = some q ∧ q < k ∧ (q = root ∨ isDescendant doc root q = true) := by
  unfold isDescendant
  cases k with
  | zero =>
    simp only [descends]
    constructor
    · intro h; simp at h
    · rintro ⟨q, _, hq, _⟩; omega
  | succ k =>
    simp only [descends]
    cases hp : parentOf doc (k + 1) with
    | none => simp
    | some q =>
      simp only [Bool.and_eq_true, decide_eq_true_eq, Bool.or_eq_true, beq_iff_eq,
        Option.some.injEq, exists_eq_left']
      constructor
      · rintro ⟨h1, h2⟩
        refine ⟨h1, ?_⟩
        rcases h2 with h2 | h2
        · exact Or.inl h2
        · right
          rw [← descends_fuel doc root k q (by omega)]
          exact h2
      · rintro ⟨h1, h2⟩
        refine ⟨h1, ?_⟩
        rcases h2 with h2 | h2
        · exact Or.inl h2
        · right
          rw [descends_fuel doc root k q (by omega)]
          exact h2

theorem isDescendant_lt {doc : Document} {root k : Nat} (h : isDescendant doc root k = true) :
    root < k :=
  descends_lt doc root k k h

theorem isDescendant_trans (doc : Document) (a b : Nat) (hab : isDescendant doc a b = true) :
    ∀ c, isDescendant doc b c = true → isDescendant doc a c = true := by
  intro c
  induction c using Nat.strong_induction_on with
  | _ c ih =>
    intro hbc
    obtain ⟨q, hp, hq, hcase⟩ := (isDescendant_iff doc b c).1 hbc
    refine (isDescendant_iff doc a c).2 ⟨q, hp, hq, Or.inr ?_⟩
    rcases hcase with h | h
    · subst h; exact hab
    · exact ih q hq h

/-- The ancestors of an element lie on one chain. -/
theorem ancestors_comparable (doc : Document) (a b : Nat) :
    ∀ c, isDescendant doc a c = true → isDescendant doc b c = true →
      a = b ∨ isDescendant doc a b = true ∨ isDescendant doc b a = true := by
  intro c
  induction c using Nat.strong_induction_on with
  | _ c ih =>
    intro hac hbc
    obtain ⟨q, hp, hq, hcase⟩ := (isDescendant_iff doc a c).1 hac
    obtain ⟨q1, hp1, _, hcase1⟩ := (isDescendant_iff doc b c).1 hbc
    rw [hp] at hp1
    cases hp1
    rcases hcase with h | h <;> rcases hcase1 with h1 | h1
    · left; rw [← h, ← h1]
    · right; right; rw [← h]; exact h1
    · right; left; rw [← h1]; exact h
    · exact ih q hq h h1

/-! ## Theorems: the render, step by step -/

theorem at?_eq {α : Type} (xs : List α) {j : Int} (h : 0 ≤ j) : at? xs j = xs[j.toNat]? := by
  unfold at?
  simp [not_lt.2 h]

theorem set_wrap (idx : List Int) (i : Nat) (n len cur : Int) (h : idx[i]? = some cur) :
    (if n < 1 then (if n > len then idx.set i 1 else idx).set i len
      else (if n > len then idx.set i 1 else idx)) = idx.set i (wrapIndex n len cur) := by
  have hi : i < idx.length := (List.getElem?_eq_some_iff.1 h).1
  have hself : idx.set i cur = idx := by
    apply List.ext_getElem?
    intro j
    rw [List.getElem?_set]
    by_cases hij : i = j
    · subst hij; simp [hi, h]
    · simp [hij]
  unfold wrapIndex
  by_cases h1 : n < 1 <;> by_cases h2 : n > len <;> simp [h1, h2, hself]

theorem nextIndex_eq (cur len : Int) (h1 : 1 ≤ cur) (h2 : cur ≤ len) :
    (if len = 0 ∨ Int.tmod cur len = 0 then len else Int.tmod cur len) = cur := by
  rcases eq_or_lt_of_le h2 with h | h
  · subst h
    simp [Int.tmod_self]
  · have : Int.tmod cur len = cur := Int.tmod_eq_of_lt (by omega) h
    rw [this]
    have : ¬ (len = 0 ∨ cur = 0) := by omega
    simp [this]

theorem getElem?_set_same {α : Type} (xs : List α) (i : Nat) (x : α) (h : i < xs.length) :
    (xs.set i x)[i]? = some x := by
  simp [List.getElem?_set, h]

/-- A render on a wrapper with a slide and a dot at the wrapped index
completes, and leaves `renderDoc`. -/
theorem showSlides_ok (p : Page) (n : Int) (i w : Nat) (cur0 : Int)
    (hs : p.slideshows[i]? = some w) (hc : p.slideIndices[i]? = some cur0)
    (h1 : 1 ≤ wrapIndex n (querySelectorAll p.doc w isSlide).length cur0)
    (h2 : wrapIndex n (querySelectorAll p.doc w isSlide).length cur0 ≤
      (querySelectorAll p.doc w isSlide).length)
    (h3 : wrapIndex n (querySelectorAll p.doc w isSlide).length cur0 ≤
      (querySelectorAll p.doc w isDot).length) :
    ∃ s d,
      (querySelectorAll p.doc w isSlide)[(wrapIndex n
        (querySelectorAll p.doc w isSlide).length cur0 - 1).toNat]? = some s ∧
      (querySelectorAll p.doc w isDot)[(wrapIndex n
        (querySelectorAll p.doc w isSlide).length cur0 - 1).toNat]? = some d ∧
      showSlides p n i = .ok
        { p with
          doc := renderDoc p.doc (querySelectorAll p.doc w isSlide)
            (querySelectorAll p.doc w isDot) s d,
          slideIndices := p.slideIndices.set i
            (wrapIndex n (querySelectorAll p.doc w isSlide).length cur0),
          preloads := p.preloads ++ preloadRequest
            (renderDoc p.doc (querySelectorAll p.doc w isSlide)
              (querySelectorAll p.doc w isDot) s d) s } := by
  generalize hS : querySelectorAll p.doc w isSlide = S at *
  generalize hD : querySelectorAll p.doc w isDot = D at *
  set cur := wrapIndex n S.length cur0 with hcur
  set k := (cur - 1).toNat with hk
  have hkl : k < S.length := by omega
  have hkd : k < D.length := by omega
  have hi : i < p.slideIndices.length := (List.getElem?_eq_some_iff.1 hc).1
  refine ⟨S[k], D[k], by simp, by simp, ?_⟩
  have hslide : S[k]? = some S[k] := by simp
  have hdot : D[k]? = some D[k] := by simp
  have hidx := set_wrap p.slideIndices i n S.length cur0 hc
  have hnext := nextIndex_eq cur S.length h1 h2
  have h0 : (0 : Int) ≤ cur - 1 := by omega
  unfold showSlides
  simp only [hs, hS, hD, hidx, ← hcur, List.getElem?_set, hi, if_true, at?_eq _ h0, ← hk,
    hslide, hdot, hnext]
  rfl

/-- The index a render leaves, whether or not it completes. -/
theorem showSlides_indices (p : Page) (n : Int) (i w : Nat) (cur0 : Int)
    (hs : p.slideshows[i]? = some w) (hc : p.slideIndices[i]? = some cur0) :
    (showSlides p n i).page.slideIndices =
      p.slideIndices.set i (wrapIndex n (querySelectorAll p.doc w isSlide).length cur0) := by
  have hidx := set_wrap p.slideIndices i n (querySelectorAll p.doc w isSlide).length cur0 hc
  unfold showSlides
  simp only [hs, hidx]
  split
  · rfl
  · split
    · rfl
    · split
      · rfl
      · split
        · rfl
        · split <;> rfl

theorem wrapIndex_self_range (m len : Int) (h : 1 ≤ len) :
    1 ≤ wrapIndex m len m ∧ wrapIndex m len m ≤ len := by
  unfold wrapIndex
  split
  · omega
  · split <;> omega

theorem wrapIndex_in_range (n len cur : Int) (h1 : 1 ≤ cur) (h2 : cur ≤ len) :
    1 ≤ wrapIndex n len cur ∧ wrapIndex n len cur ≤ len := by
  unfold wrapIndex
  split
  · omega
  · split <;> omega

theorem wrapIndex_idem (n len cur : Int) :
    wrapIndex n len (wrapIndex n len cur) = wrapIndex n len cur := by
  unfold wrapIndex
  split
  · rfl
  · split <;> rfl

/-! ## Theorems: what a call leaves alone -/

theorem shape_hide (e : Element) : shape (hide e) = shape e := rfl

theorem shape_resetDot (e : Element) : shape (resetDot e) = shape e := rfl

theorem shape_unhide (e : Element) : shape (unhide e) = shape e := rfl

theorem shape_lightDot (e : Element) : shape (lightDot e) = shape e := rfl

theorem shape_deferImg (e : Element) : shape (deferImg e) = shape e := rfl

theorem shape_promote (e : Element) : shape (promote e) = shape e := by
  unfold promote
  split <;> rfl

theorem under_refl (doc : Document) (w : Nat) : ChangedOnlyUnder doc doc w :=
  ⟨similar_refl doc, fun _ _ => rfl⟩

theorem under_modify {doc a : Document} {w : Nat} (h : ChangedOnlyUnder doc a w)
    (f : Element → Element) (hf : ∀ e, shape (f e) = shape e) (k : Nat)
    (hk : isDescendant doc w k = true) : ChangedOnlyUnder doc (a.modify f k) w := by
  refine ⟨similar_trans h.1 (similar_modify a f k hf), ?_⟩
  intro j hj
  have hkj : k ≠ j := by
    intro e
    rw [e, hj] at hk
    exact Bool.noConfusion hk
  rw [List.getElem?_modify, ← h.2 j hj]
  cases a[j]? <;> simp [hkj]

theorem under_forEachAt (f : Element → Element) (hf : ∀ e, shape (f e) = shape e) {doc : Document}
    {w : Nat} : ∀ (ids : List Nat) (a : Document), ChangedOnlyUnder doc a w →
      (∀ k ∈ ids, isDescendant doc w k = true) → ChangedOnlyUnder doc (forEachAt ids f a) w
  | [], _, h, _ => h
  | k :: ids, a, h, hids =>
    under_forEachAt f hf ids (a.modify f k)
      (under_modify h f hf k (hids k (List.mem_cons_self _ _)))
      (fun x hx => hids x (List.mem_cons_of_mem _ hx))

theorem querySelector_mem {doc : Document} {root : Nat} {sel : Element → Bool} {k : Nat}
    (h : querySelector doc root sel = some k) : k ∈ querySelectorAll doc root sel := by
  unfold querySelector at h
  exact List.mem_of_mem_head? h

theorem under_promoteIn {doc a : Document} {w : Nat} (h : ChangedOnlyUnder doc a w) (s : Nat)
    (hs : isDescendant doc w s = true) : ChangedOnlyUnder doc (promoteIn a s) w := by
  unfold promoteIn
  split
  · rename_i g hg
    have hmem := (mem_querySelectorAll.1 (querySelector_mem hg)).2.1
    rw [similar_isDescendant h.1] at hmem
    exact under_modify h promote shape_promote g (isDescendant_trans doc w s hs g hmem)
  · exact h

theorem at?_mem {α : Type} {xs : List α} {j : Int} {x : α} (h : at? xs j = some x) : x ∈ xs := by
  unfold at? at h
  split at h
  · exact Option.noConfusion h
  · exact List.getElem?_mem h

/-- A render rewrites descendants of its wrapper only, whether or not it
completes; `slideshows`, `observed` and the other entries of `slideIndices` are
kept. -/
theorem showSlides_under (p : Page) (n : Int) (i w : Nat) (hs : p.slideshows[i]? = some w) :
    ChangedOnlyUnder p.doc (showSlides p n i).page.doc w ∧
    (showSlides p n i).page.slideshows = p.slideshows ∧
    (showSlides p n i).page.observed = p.observed ∧
    ∀ j, i ≠ j → (showSlides p n i).page.slideIndices[j]? = p.slideIndices[j]? := by
  have hS : ∀ k ∈ querySelectorAll p.doc w isSlide, isDescendant p.doc w k = true :=
    fun k hk => (mem_querySelectorAll.1 hk).2.1
  have hD : ∀ k ∈ querySelectorAll p.doc w isDot, isDescendant p.doc w k = true :=
    fun k hk => (mem_querySelectorAll.1 hk).2.1
  have u1 := under_forEachAt hide shape_hide (querySelectorAll p.doc w isSlide) p.doc
    (under_refl p.doc w) hS
  have u2 := under_forEachAt resetDot shape_resetDot (querySelectorAll p.doc w isDot) _ u1 hD
  have hidx : ∀ (len : Int) (j : Nat), i ≠ j →
      (if n < 1 then (if n > len then p.slideIndices.set i 1 else p.slideIndices).set i len
        else (if n > len then p.slideIndices.set i 1 else p.slideIndices))[j]? =
      p.slideIndices[j]? := by
    intro len j hij
    by_cases a : n < 1 <;> by_cases b : n > len <;> simp [a, b, List.getElem?_set, hij]
  unfold showSlides
  simp only [hs]
  split
  · exact ⟨u2, rfl, rfl, hidx _⟩
  · split
    · exact ⟨u2, rfl, rfl, hidx _⟩
    · rename_i slide hslide
      have u3 := under_modify u2 unhide shape_unhide slide (hS slide (at?_mem hslide))
      split
      · exact ⟨u3, rfl, rfl, hidx _⟩
      · rename_i dot hdot
        have u4 := under_modify u3 lightDot shape_lightDot dot (hD dot (at?_mem hdot))
        split
        · exact ⟨u4, rfl, rfl, hidx _⟩
        · rename_i cs hcs
          cases hcs
          have u5 := under_promoteIn u4 slide (hS slide (at?_mem hslide))
          split
          · exact ⟨u5, rfl, rfl, hidx _⟩
          · exact ⟨u5, rfl, rfl, hidx _⟩

theorem changeSlide_under (p : Page) (n : Int) (i w : Nat) (hs : p.slideshows[i]? = some w) :
    ChangedOnlyUnder p.doc (changeSlide p n i).page.doc w ∧
    (changeSlide p n i).page.slideshows = p.slideshows ∧
    (changeSlide p n i).page.observed = p.observed ∧
    ∀ j, i ≠ j → (changeSlide p n i).page.slideIndices[j]? = p.slideIndices[j]? := by
  unfold changeSlide
  split
  · exact ⟨under_refl _ _, rfl, rfl, fun _ _ => rfl⟩
  · rename_i cur hcur
    obtain ⟨a, b, c, d⟩ := showSlides_under
      { p with slideIndices := p.slideIndices.set i (cur + n) } (cur + n) i w hs
    refine ⟨a, b, c, ?_⟩
    intro j hij
    rw [d j hij]
    simp [List.getElem?_set, hij]

theorem currentSlide_under (p : Page) (n : Int) (i w : Nat) (hs : p.slideshows[i]? = some w) :
    ChangedOnlyUnder p.doc (currentSlide p n i).page.doc w ∧
    (currentSlide p n i).page.slideshows = p.slideshows ∧
    (currentSlide p n i).page.observed = p.observed ∧
    ∀ j, i ≠ j → (currentSlide p n i).page.slideIndices[j]? = p.slideIndices[j]? := by
  unfold currentSlide
  obtain ⟨a, b, c, d⟩ := showSlides_under
    { p with slideIndices := p.slideIndices.set i n } n i w hs
  refine ⟨a, b, c, ?_⟩
  intro j hij
  rw [d j hij]
  simp [List.getElem?_set, hij]

/-- What is rewritten under `wi` only is kept on `wj` and under it, when
neither wrapper is in the other. -/
theorem under_disjoint {doc doc1 : Document} {wi wj : Nat} (h : ChangedOnlyUnder doc doc1 wi)
    (hne : wi ≠ wj) (h1 : isDescendant doc wi wj = false) (h2 : isDescendant doc wj wi = false) :
    (∀ k, k = wj ∨ isDescendant doc wj k = true → doc1[k]? = doc[k]?) ∧
    ∀ sel : Element → Bool, querySelectorAll doc1 wj sel = querySelectorAll doc wj sel := by
  have key : ∀ k, k = wj ∨ isDescendant doc wj k = true → doc1[k]? = doc[k]? := by
    intro k hk
    apply h.2
    rcases hk with hk | hk
    · rw [hk]; exact h1
    · cases hd : isDescendant doc wi k with
      | false => rfl
      | true =>
        rcases ancestors_comparable doc wi wj k hd hk with e | e | e
        · exact absurd e hne
        · rw [h1] at e; exact Bool.noConfusion e
        · rw [h2] at e; exact Bool.noConfusion e
  refine ⟨key, ?_⟩
  intro sel
  unfold querySelectorAll
  rw [similar_length h.1]
  apply List.filter_congr
  intro k _
  rw [similar_isDescendant h.1]
  cases hd : isDescendant doc wj k with
  | false => rfl
  | true =>
    have := key k (Or.inr hd)
    unfold selects
    rw [this]

/-! ## Theorems: the render, element by element -/

theorem classList_append_activeDot (s : Str) :
    classList (s ++ activeDot) = classList s ++ ["active-dot".toList] := by
  unfold classList
  have e : s ++ activeDot = s ++ ' ' :: "active-dot".toList := rfl
  rw [e, splitOnP_append_sep isAsciiWhitespace s _ ' ' (by decide)]
  have : "active-dot".toList.splitOnP isAsciiWhitespace = ["active-dot".toList] := by decide
  rw [this, List.filter_append]
  congr 1

theorem filter_classList_clean {s : Str} (h : Clean s) :
    (classList s).filter (fun token => token ≠ "active-dot".toList) = classList s := by
  rw [List.filter_eq_self]
  intro t ht
  have : t ≠ "active-dot".toList := fun e => not_active_of_clean h (e ▸ ht)
  simpa using this

theorem dotReady_reset {c : Str} (h : DotReady c) : DotReady (replaceFirst activeDot [] c) := by
  unfold DotReady
  rw [replaceFirst_clean h.1]
  exact ⟨h.1, (filter_classList_clean h.1).symm⟩

theorem dotReady_lit {c : Str} (h : DotReady c) :
    DotReady (replaceFirst activeDot [] c ++ activeDot) := by
  unfold DotReady
  rw [replaceFirst_append_activeDot h.1, classList_append_activeDot, List.filter_append,
    filter_classList_clean h.1]
  refine ⟨h.1, ?_⟩
  have : List.filter (fun token => decide (token ≠ "active-dot".toList)) ["active-dot".toList]
      = [] := by decide
  rw [this, List.append_nil]

theorem mem_classList_reset {c : Str} (h : DotReady c) {t : Str} (ht : t ≠ "active-dot".toList) :
    t ∈ classList (replaceFirst activeDot [] c) ↔ t ∈ classList c := by
  rw [h.2, List.mem_filter]
  constructor
  · exact fun x => x.1
  · exact fun x => ⟨x, decide_eq_true ht⟩

theorem mem_classList_lit (s : Str) {t : Str} (ht : t ≠ "active-dot".toList) :
    t ∈ classList (s ++ activeDot) ↔ t ∈ classList s := by
  rw [classList_append_activeDot, List.mem_append]
  constructor
  · intro x
    rcases x with x | x
    · exact x
    · exact absurd (List.mem_singleton.1 x) ht
  · exact fun x => Or.inl x

theorem querySelectorAll_and (doc : Document) (root : Nat) (a b : Element → Bool) :
    querySelectorAll doc root (fun e => a e && b e) =
      (querySelectorAll doc root a).filter (selects doc b) := by
  unfold querySelectorAll
  rw [List.filter_filter]
  apply List.filter_congr
  intro k _
  unfold selects
  cases doc[k]? with
  | none => simp
  | some e =>
    show (isDescendant doc root k && (a e && b e)) = (b e && (isDescendant doc root k && a e))
    cases isDescendant doc root k <;> cases a e <;> cases b e <;> rfl

theorem modify_same {doc : Document} {f : Element → Element} {k : Nat}
    (h : ∀ e, doc[k]? = some e → f e = e) : doc.modify f k = doc := by
  apply List.ext_getElem?
  intro j
  rw [List.getElem?_modify]
  cases hj : doc[j]? with
  | none => rfl
  | some e =>
    by_cases hkj : k = j
    · subst hkj
      simp [h e hj]
    · simp [hkj]

theorem promote_of_none {e : Element} (h : e.dataSrc = none) : promote e = e := by
  unfold promote
  rw [h]

/-- On a slide whose only image is `g`, lines 68-72 are `promote` on `g`. -/
theorem promoteIn_single {doc : Document} {s g : Nat}
    (h : querySelectorAll doc s Element.isImg = [g]) : promoteIn doc s = doc.modify promote g := by
  have hq : querySelectorAll doc s isPendingImg =
      [g].filter (selects doc (fun e => e.dataSrc.isSome)) := by
    rw [← h]
    exact querySelectorAll_and doc s Element.isImg (fun e => e.dataSrc.isSome)
  unfold promoteIn querySelector
  rw [hq]
  cases hsel : selects doc (fun e => e.dataSrc.isSome) g with
  | true => simp [List.filter, hsel]
  | false =>
    simp only [List.filter, hsel, List.head?_nil]
    symm
    apply modify_same
    intro e he
    apply promote_of_none
    unfold selects at hsel
    rw [he] at hsel
    cases hd : e.dataSrc with
    | none => rfl
    | some x => simp [hd] at hsel

/-- On a slide whose only image is `g`, lines 77-81 request the pending source
of `g`, if it has one. -/
theorem preloadRequest_single {doc : Document} {s g : Nat}
    (h : querySelectorAll doc s Element.isImg = [g]) :
    preloadRequest doc s = (dataSrcAt doc g).toList := by
  have hq : querySelectorAll doc s isPendingImg =
      [g].filter (selects doc (fun e => e.dataSrc.isSome)) := by
    rw [← h]
    exact querySelectorAll_and doc s Element.isImg (fun e => e.dataSrc.isSome)
  unfold preloadRequest querySelector dataSrcAt
  rw [hq]
  cases hsel : selects doc (fun e => e.dataSrc.isSome) g with
  | true => simp [List.filter, hsel]
  | false =>
    simp only [List.filter, hsel, List.head?_nil]
    unfold selects at hsel
    cases he : doc[g]? with
    | none => rfl
    | some e =>
      rw [he] at hsel
      cases hd : e.dataSrc with
      | none => simp [hd]
      | some x => simp [hd] at hsel

/-- The completed render, element by element, on a wrapper whose current slide
has the only image `g`. -/
theorem renderDoc_getElem? {doc : Document} {slides dots : List Nat} {s d g : Nat}
    (hS : slides.Nodup) (hD : dots.Nodup)
    (himg : querySelectorAll doc s Element.isImg = [g]) (j : Nat) :
    (renderDoc doc slides dots s d)[j]? = (doc[j]?).map (renderElem slides dots s d g j) := by
  have hsim : Similar doc (((forEachAt dots resetDot (forEachAt slides hide doc)).modify unhide
      s).modify lightDot d) :=
    similar_trans (similar_trans (similar_trans (similar_forEachAt hide shape_hide slides doc)
      (similar_forEachAt resetDot shape_resetDot dots _)) (similar_modify _ unhide s shape_unhide))
      (similar_modify _ lightDot d shape_lightDot)
  unfold renderDoc
  rw [promoteIn_single (by rw [querySelectorAll_isImg_of_similar hsim]; exact himg)]
  simp only [List.getElem?_modify, forEachAt_getElem? _ _ _ _ hD, forEachAt_getElem? _ _ _ _ hS]
  cases doc[j]? with
  | none => rfl
  | some e =>
    simp only [Option.map_some', renderElem, Functor.map]
    by_cases h1 : g = j <;> by_cases h2 : d = j <;> by_cases h3 : s = j <;>
      simp [h1, h2, h3, eq_comm]

theorem shape_renderElem (slides dots : List Nat) (s d g j : Nat) (e : Element) :
    shape (renderElem slides dots s d g j e) = shape e := by
  unfold renderElem
  simp only []
  split_ifs <;> simp [shape_promote, shape_hide, shape_resetDot, shape_unhide, shape_lightDot,
    shape, hide, resetDot, unhide, lightDot] <;> (unfold promote; split <;> simp)

theorem similar_of_getElem? {doc doc1 : Document} (f : Nat → Element → Element)
    (hf : ∀ j e, shape (f j e) = shape e) (h : ∀ j, doc1[j]? = (doc[j]?).map (f j)) :
    Similar doc doc1 := by
  unfold Similar
  apply List.ext_getElem?
  intro j
  simp only [List.getElem?_map, h j]
  cases doc[j]? with
  | none => rfl
  | some e => simp [hf]

theorem className_promote (e : Element) : (promote e).className = e.className := by
  unfold promote
  split <;> rfl

theorem className_renderElem (slides dots : List Nat) (s d g j : Nat) (e : Element) :
    (renderElem slides dots s d g j e).className =
      if j = d then (if j ∈ dots then replaceFirst activeDot [] e.className else e.className)
        ++ activeDot
      else if j ∈ dots then replaceFirst activeDot [] e.className else e.className := by
  unfold renderElem
  simp only []
  split_ifs <;> simp [className_promote, hide, resetDot, unhide, lightDot]

theorem dataSrc_promote (e : Element) : (promote e).dataSrc = none := by
  unfold promote
  cases h : e.dataSrc <;> simp [h]

theorem src_promote (e : Element) : (promote e).src = (e.dataSrc).getD e.src := by
  unfold promote
  cases h : e.dataSrc <;> simp [h]

theorem dataSrc_renderElem (slides dots : List Nat) (s d g j : Nat) (e : Element) :
    (renderElem slides dots s d g j e).dataSrc = if j = g then none else e.dataSrc := by
  unfold renderElem
  simp only []
  split_ifs <;> simp [dataSrc_promote, hide, resetDot, unhide, lightDot]

theorem src_renderElem (slides dots : List Nat) (s d g j : Nat) (e : Element) :
    (renderElem slides dots s d g j e).src = if j = g then (e.dataSrc).getD e.src else e.src := by
  unfold renderElem
  simp only []
  split_ifs <;> simp [src_promote, hide, resetDot, unhide, lightDot]

theorem display_promote (e : Element) : (promote e).display = e.display := by
  unfold promote
  split <;> rfl

theorem display_renderElem (slides dots : List Nat) (s d g j : Nat) (e : Element) :
    (renderElem slides dots s d g j e).display =
      if j = s then "block".toList else if j ∈ slides then "none".toList else e.display := by
  unfold renderElem
  simp only []
  split_ifs <;> simp [display_promote, hide, resetDot, unhide, lightDot]

/-- The render keeps every class but `active-dot` on every element, when line
59 handles the class strings of the dots. -/
theorem mem_classList_renderElem (slides dots : List Nat) (s d g j : Nat) (e : Element)
    (hd : d ∈ dots) (hready : j ∈ dots → DotReady e.className) {t : Str}
    (ht : t ≠ "active-dot".toList) :
    t ∈ classList (renderElem slides dots s d g j e).className ↔ t ∈ classList e.className := by
  rw [className_renderElem]
  by_cases h2 : j ∈ dots
  · have hr := hready h2
    by_cases h4 : j = d
    · simp only [h2, h4, if_true, hd]
      rw [mem_classList_lit _ ht]
      exact mem_classList_reset hr ht
    · simp only [h2, h4, if_true, if_false]
      exact mem_classList_reset hr ht
  · have h4 : j ≠ d := fun e => h2 (e ▸ hd)
    simp [h2, h4]

theorem dotReady_renderElem (slides dots : List Nat) (s d g j : Nat) (e : Element)
    (hj : j ∈ dots) (hready : DotReady e.className) :
    DotReady (renderElem slides dots s d g j e).className := by
  rw [className_renderElem]
  by_cases h4 : j = d
  · rw [if_pos h4, if_pos hj]
    exact dotReady_lit hready
  · rw [if_neg h4, if_pos hj]
    exact dotReady_reset hready

theorem classAt_of_getElem? {doc : Document} {k : Nat} {e : Element} (h : doc[k]? = some e) :
    classAt doc k = e.className := by
  unfold classAt
  rw [h]; rfl

theorem srcAt_of_getElem? {doc : Document} {k : Nat} {e : Element} (h : doc[k]? = some e) :
    srcAt doc k = e.src := by
  unfold srcAt
  rw [h]; rfl

theorem dataSrcAt_of_getElem? {doc : Document} {k : Nat} {e : Element} (h : doc[k]? = some e) :
    dataSrcAt doc k = e.dataSrc := by
  unfold dataSrcAt
  rw [h]; rfl

theorem oneImage_getElem? {doc : Document} {slides images : List Nat}
    (h : OneImageEach doc slides images) {k s : Nat} (hs : slides[k]? = some s) :
    ∃ g, images[k]? = some g ∧ querySelectorAll doc s Element.isImg = [g] := by
  have := congrArg (fun l => l[k]?) h.1
  simp only [List.getElem?_map, hs, Option.map_some'] at this
  cases hg : images[k]? with
  | none => simp [hg] at this
  | some g =>
    simp only [hg, Option.map_some', Option.some.injEq] at this
    exact ⟨g, rfl, this⟩

theorem oneImage_length {doc : Document} {slides images : List Nat}
    (h : OneImageEach doc slides images) : images.length = slides.length := by
  have := congrArg List.length h.1
  simpa using this.symm

theorem oneImage_of_similar {doc doc1 : Document} {slides images : List Nat}
    (hsim : Similar doc doc1) (h : OneImageEach doc slides images) :
    OneImageEach doc1 slides images := by
  refine ⟨?_, h.2⟩
  rw [← h.1]
  apply List.map_congr_left
  intro s _
  exact querySelectorAll_isImg_of_similar hsim s

theorem selects_hasClass_congr {doc doc1 : Document} (name : Str) (j : Nat)
    (h : ∀ e1, doc1[j]? = some e1 → ∃ e, doc[j]? = some e ∧
      (name ∈ classList e1.className ↔ name ∈ classList e.className))
    (hnone : doc1[j]? = none → doc[j]? = none) :
    selects doc1 (fun e => e.hasClass name) j = selects doc (fun e => e.hasClass name) j := by
  unfold selects
  cases h1 : doc1[j]? with
  | none => rw [hnone h1]
  | some e1 =>
    obtain ⟨e, he, hiff⟩ := h e1 h1
    rw [he]
    simp only [Element.hasClass]
    exact decide_eq_decide.2 hiff

/-! ## Theorems: what a render keeps -/

theorem selects_isSlide_render {doc doc1 : Document} {slides dots : List Nat} {s d g : Nat}
    (hd : d ∈ dots) (hready : ∀ j ∈ dots, DotReady (classAt doc j))
    (hR : ∀ j, doc1[j]? = (doc[j]?).map (renderElem slides dots s d g j)) (name : Str)
    (hname : name ≠ "active-dot".toList) (j : Nat) :
    selects doc1 (fun e => e.hasClass name) j = selects doc (fun e => e.hasClass name) j := by
  apply selects_hasClass_congr
  · intro e1 he1
    rw [hR j] at he1
    cases he : doc[j]? with
    | none => simp [he] at he1
    | some e =>
      simp only [he, Option.map_some', Option.some.injEq] at he1
      refine ⟨e, rfl, ?_⟩
      rw [← he1]
      apply mem_classList_renderElem slides dots s d g j e hd _ hname
      intro hj
      rw [← classAt_of_getElem? he]
      exact hready j hj
  · intro h1
    rw [hR j] at h1
    cases he : doc[j]? with
    | none => rfl
    | some e => simp [he] at h1

/-- A completed render keeps what `Stable` says, and leaves the image of the
current slide loaded. -/
theorem render_stable {doc0 doc : Document} {w : Nat} {slides dots images : List Nat}
    (hst : Stable doc0 doc w slides dots images) {k s d g : Nat}
    (hd : dots[k]? = some d) (hg : images[k]? = some g)
    (himg : querySelectorAll doc0 s Element.isImg = [g]) :
    Stable doc0 (renderDoc doc slides dots s d) w slides dots images ∧
    Loaded doc0 (renderDoc doc slides dots s d) g ∧
    ∀ j, (renderDoc doc slides dots s d)[j]? = (doc[j]?).map (renderElem slides dots s d g j) := by
  have hS : slides.Nodup := hst.slides_eq ▸ querySelectorAll_nodup doc w isSlide
  have hD : dots.Nodup := hst.dots_eq ▸ querySelectorAll_nodup doc w isDot
  have himg1 : querySelectorAll doc s Element.isImg = [g] := by
    rw [querySelectorAll_isImg_of_similar hst.similar]; exact himg
  have hR : ∀ j, (renderDoc doc slides dots s d)[j]? =
      (doc[j]?).map (renderElem slides dots s d g j) := renderDoc_getElem? hS hD himg1
  have hdm : d ∈ dots := List.getElem?_mem hd
  have hgm : g ∈ images := List.getElem?_mem hg
  have hsim : Similar doc (renderDoc doc slides dots s d) :=
    similar_of_getElem? (renderElem slides dots s d g) (shape_renderElem slides dots s d g) hR
  have hlazy : ∀ g1 ∈ images, (Loaded doc0 doc g1 ∨ Deferred doc0 doc g1) →
      (g1 = g → Loaded doc0 (renderDoc doc slides dots s d) g1) ∧
      (Loaded doc0 (renderDoc doc slides dots s d) g1 ∨
        Deferred doc0 (renderDoc doc slides dots s d) g1) := by
    intro g1 _ hcase
    unfold Loaded Deferred srcAt dataSrcAt at hcase ⊢
    rw [hR g1]
    cases he : doc[g1]? with
    | none =>
      rw [he] at hcase
      by_cases hgg : g1 = g
      · rcases hcase with h | h
        · exact ⟨fun _ => h, Or.inl h⟩
        · simp at h
      · exact ⟨fun e => absurd e hgg, hcase⟩
    | some e =>
      rw [he] at hcase
      simp only [Option.map_some', Option.getD_some, Option.bind_some, Option.some_bind,
        src_renderElem, dataSrc_renderElem] at hcase ⊢
      by_cases hgg : g1 = g
      · simp only [hgg, if_true] at hcase ⊢
        rcases hcase with h | h
        · have : Loaded doc0 doc g ∨ True := Or.inr trivial
          simp only [h.2, Option.getD_none]
          exact ⟨fun _ => ⟨h.1, trivial⟩, Or.inl ⟨h.1, trivial⟩⟩
        · simp only [h.2, Option.getD_some]
          exact ⟨fun _ => ⟨trivial, trivial⟩, Or.inl ⟨trivial, trivial⟩⟩
      · simp only [hgg, if_false]
        exact ⟨fun e => False.elim e, hcase⟩
  refine ⟨⟨similar_trans hst.similar hsim, ?_, ?_, ?_, ?_⟩, ?_, hR⟩
  · exact (querySelectorAll_congr hsim w isSlide
      (selects_isSlide_render hdm hst.ready hR "slide".toList (by decide))).trans hst.slides_eq
  · exact (querySelectorAll_congr hsim w isDot
      (selects_isSlide_render hdm hst.ready hR "dot".toList (by decide))).trans hst.dots_eq
  · intro d1 hd1
    have hr := hst.ready d1 hd1
    unfold classAt at hr ⊢
    rw [hR d1]
    cases he : doc[d1]? with
    | none => rw [he] at hr; exact hr
    | some e =>
      rw [he] at hr
      exact dotReady_renderElem slides dots s d g d1 e hd1 hr
  · intro g1 hg1
    exact (hlazy g1 hg1 (hst.lazy g1 hg1)).2
  · exact (hlazy g hgm (hst.lazy g hgm)).1 rfl

theorem preloadRequest_loaded {doc0 doc : Document} {s g : Nat}
    (himg : querySelectorAll doc s Element.isImg = [g]) (h : Loaded doc0 doc g) :
    preloadRequest doc s = [] := by
  rw [preloadRequest_single himg, h.2]
  rfl

/-- A render on a stable wrapper, the wrapped index within the slides,
completes, requests no source, and leaves the wrapper settled. -/
theorem showSlides_settled (doc0 : Document) (p : Page) (n : Int) (i w : Nat)
    (slides dots images : List Nat) (cur0 : Int)
    (hm : OneImageEach doc0 slides images) (hlen : dots.length = slides.length)
    (hs : p.slideshows[i]? = some w) (hc : p.slideIndices[i]? = some cur0)
    (hst : Stable doc0 p.doc w slides dots images)
    (hobs : ∀ captured, p.observed.lookup i = some captured → captured = slides)
    (h1 : 1 ≤ wrapIndex n slides.length cur0) (h2 : wrapIndex n slides.length cur0 ≤ slides.length) :
    ∃ s d g, slides[(wrapIndex n slides.length cur0 - 1).toNat]? = some s ∧
      dots[(wrapIndex n slides.length cur0 - 1).toNat]? = some d ∧
      images[(wrapIndex n slides.length cur0 - 1).toNat]? = some g ∧
      showSlides p n i = .ok
        { p with doc := renderDoc p.doc slides dots s d,
                 slideIndices := p.slideIndices.set i (wrapIndex n slides.length cur0) } ∧
      (∀ j, (renderDoc p.doc slides dots s d)[j]? =
        (p.doc[j]?).map (renderElem slides dots s d g j)) ∧
      Settled doc0
        { p with doc := renderDoc p.doc slides dots s d,
                 slideIndices := p.slideIndices.set i (wrapIndex n slides.length cur0) }
        i w slides dots images := by
  have hi : i < p.slideIndices.length := (List.getElem?_eq_some_iff.1 hc).1
  obtain ⟨s, d, hsk, hdk, hok⟩ := showSlides_ok p n i w cur0 hs hc
    (by rw [hst.slides_eq]; exact h1) (by rw [hst.slides_eq]; exact h2)
    (by rw [hst.slides_eq, hst.dots_eq, hlen]; exact h2)
  rw [hst.slides_eq] at hsk hdk hok
  rw [hst.dots_eq] at hdk hok
  obtain ⟨g, hgk, himg⟩ := oneImage_getElem? hm hsk
  obtain ⟨hst1, hload, hR⟩ := render_stable hst hdk hgk himg
  have himg1 : querySelectorAll (renderDoc p.doc slides dots s d) s Element.isImg = [g] := by
    rw [querySelectorAll_isImg_of_similar hst1.similar]; exact himg
  rw [preloadRequest_loaded himg1 hload, List.append_nil] at hok
  exact ⟨s, d, g, hsk, hdk, hgk, hok, hR, hs, hst1, hobs,
    _, g, getElem?_set_same _ _ _ hi, h1, h2, hgk, hload⟩

theorem elem_eq {a b : Element} (h1 : shape a = shape b) (h2 : a.className = b.className)
    (h3 : a.display = b.display) (h4 : a.src = b.src) (h5 : a.dataSrc = b.dataSrc) : a = b := by
  cases a
  cases b
  simp only [shape, Prod.mk.injEq] at h1
  simp_all

/-- A second pass of lines 53-72 over an element changes nothing, when line 59
handles its class string. -/
theorem renderElem_idem (slides dots : List Nat) (s d g j : Nat) (e : Element) (hd : d ∈ dots)
    (hready : j ∈ dots → DotReady e.className) :
    renderElem slides dots s d g j (renderElem slides dots s d g j e) =
      renderElem slides dots s d g j e := by
  apply elem_eq
  · rw [shape_renderElem]
  · rw [className_renderElem slides dots s d g j (renderElem slides dots s d g j e),
      className_renderElem slides dots s d g j e]
    by_cases h2 : j ∈ dots
    · have hr := hready h2
      by_cases h4 : j = d
      · rw [if_pos h4, if_pos h4, if_pos h2, if_pos h2, replaceFirst_append_activeDot hr.1]
      · rw [if_neg h4, if_neg h4, if_pos h2, if_pos h2, replaceFirst_clean hr.1]
    · have h4 : j ≠ d := fun e => h2 (e ▸ hd)
      rw [if_neg h4, if_neg h4, if_neg h2, if_neg h2]
  · rw [display_renderElem slides dots s d g j (renderElem slides dots s d g j e),
      display_renderElem slides dots s d g j e]
    split_ifs <;> rfl
  · rw [src_renderElem slides dots s d g j (renderElem slides dots s d g j e),
      dataSrc_renderElem slides dots s d g j e, src_renderElem slides dots s d g j e]
    split_ifs <;> rfl
  · rw [dataSrc_renderElem slides dots s d g j (renderElem slides dots s d g j e),
      dataSrc_renderElem slides dots s d g j e]
    split_ifs <;> rfl

/-! ## Theorems: the lazy-loading setup -/

/-- Lines 94-100 on slides with one image each: the images are deferred, but
for the slide of index 0. -/
theorem setup_fold : ∀ (slides images : List Nat) (n : Nat) (doc : Document),
    slides.map (fun s => querySelectorAll doc s Element.isImg) = images.map (fun g => [g]) →
    (slides.enumFrom n).foldl (fun doc entry => deferSlide doc entry.1 entry.2) doc =
      forEachAt (if n = 0 then images.tail else images) deferImg doc
  | [], images, n, doc, h => by
    have : images = [] := by
      cases images with
      | nil => rfl
      | cons g gs => simp at h
    subst this
    simp [forEachAt]
  | s :: slides, images, n, doc, h => by
    cases images with
    | nil => simp at h
    | cons g gs =>
      simp only [List.map_cons, List.cons.injEq] at h
      obtain ⟨hs, hrest⟩ := h
      have hq : querySelector doc s Element.isImg = some g := by
        unfold querySelector
        rw [hs]; rfl
      have hsim : Similar doc (deferSlide doc n s) := by
        unfold deferSlide
        rw [hq]
        simp only []
        split
        · exact similar_modify doc deferImg g shape_deferImg
        · exact similar_refl doc
      have hrest1 : slides.map (fun x => querySelectorAll (deferSlide doc n s) x Element.isImg)
          = gs.map (fun g => [g]) := by
        rw [← hrest]
        apply List.map_congr_left
        intro x _
        exact querySelectorAll_isImg_of_similar hsim x
      have ih := setup_fold slides gs (n + 1) (deferSlide doc n s) hrest1
      simp only [List.enumFrom_cons, List.foldl_cons, ih, Nat.succ_ne_zero, if_false]
      unfold deferSlide
      rw [hq]
      by_cases hn : n = 0
      · subst hn
        simp
      · have : n > 0 := by omega
        simp only [this, if_true, hn, if_false]
        rfl

theorem stable_of_pointwise {doc0 doc doc1 : Document} {w : Nat} {slides dots images : List Nat}
    (hst : Stable doc0 doc w slides dots images) (f : Nat → Element → Element)
    (hshape : ∀ j e, shape (f j e) = shape e)
    (hclass : ∀ j e, (f j e).className = e.className)
    (h : ∀ j, doc1[j]? = (doc[j]?).map (f j))
    (hlazy : ∀ g ∈ images, Loaded doc0 doc1 g ∨ Deferred doc0 doc1 g) :
    Stable doc0 doc1 w slides dots images := by
  have hsim : Similar doc doc1 := similar_of_getElem? f hshape h
  have hsel : ∀ (name : Str) (j : Nat),
      selects doc1 (fun e => e.hasClass name) j = selects doc (fun e => e.hasClass name) j := by
    intro name j
    unfold selects
    rw [h j]
    cases doc[j]? with
    | none => rfl
    | some e => simp [Element.hasClass, hclass]
  refine ⟨similar_trans hst.similar hsim, ?_, ?_, ?_, hlazy⟩
  · exact (querySelectorAll_congr hsim w isSlide (hsel "slide".toList)).trans hst.slides_eq
  · exact (querySelectorAll_congr hsim w isDot (hsel "dot".toList)).trans hst.dots_eq
  · intro d hd
    have hr := hst.ready d hd
    unfold classAt at hr ⊢
    rw [h d]
    cases he : doc[d]? with
    | none => rw [he] at hr; exact hr
    | some e =>
      rw [he] at hr
      simpa [hclass] using hr

theorem loaded_of_render {doc0 doc doc1 : Document} {slides dots : List Nat} {s d g : Nat}
    (hR : ∀ j, doc1[j]? = (doc[j]?).map (renderElem slides dots s d g j)) (g1 : Nat)
    (h : Loaded doc0 doc g1) : Loaded doc0 doc1 g1 := by
  unfold Loaded srcAt dataSrcAt at h ⊢
  rw [hR g1]
  cases he : doc[g1]? with
  | none => rw [he] at h; exact h
  | some e =>
    rw [he] at h
    simp only [Option.map_some', Option.getD_some, Option.some_bind, src_renderElem,
      dataSrc_renderElem] at h ⊢
    rw [h.2]
    constructor
    · split_ifs
      · exact h.1
      · exact h.1
    · split_ifs <;> rfl

theorem oneImage_mem {doc : Document} {slides images : List Nat}
    (h : OneImageEach doc slides images) {g : Nat} (hg : g ∈ images) :
    ∃ (k : Nat) (s : Nat), images[k]? = some g ∧ slides[k]? = some s ∧
      querySelectorAll doc s Element.isImg = [g] := by
  obtain ⟨k, hk⟩ := List.getElem?_of_mem hg
  have hlt : k < images.length := (List.getElem?_eq_some_iff.1 hk).1
  have hlen := oneImage_length h
  cases hs : slides[k]? with
  | none =>
    have := List.getElem?_eq_none_iff.1 hs
    omega
  | some s =>
    obtain ⟨g1, hg1, himg⟩ := oneImage_getElem? h hs
    rw [hk] at hg1
    cases hg1
    exact ⟨k, s, hk, hs, himg⟩

theorem oneImage_in_range {doc : Document} {slides images : List Nat}
    (h : OneImageEach doc slides images) {g : Nat} (hg : g ∈ images) : g < doc.length := by
  obtain ⟨_, s, _, _, himg⟩ := oneImage_mem h hg
  have : g ∈ querySelectorAll doc s Element.isImg := by rw [himg]; exact List.mem_singleton.2 rfl
  exact (mem_querySelectorAll.1 this).1

/-- After `setupLazyLoading` on a wrapper whose images are all loaded, the
image of the first slide is loaded and the others are deferred. -/
theorem setup_stable {doc0 doc : Document} {w : Nat} {slides dots images : List Nat}
    (hm : OneImageEach doc0 slides images) (hst : Stable doc0 doc w slides dots images)
    (hall : ∀ g ∈ images, Loaded doc0 doc g) :
    (slides.enum.foldl (fun doc entry => deferSlide doc entry.1 entry.2) doc =
      forEachAt images.tail deferImg doc) ∧
    Stable doc0 (forEachAt images.tail deferImg doc) w slides dots images ∧
    (∀ g, images[0]? = some g → Loaded doc0 (forEachAt images.tail deferImg doc) g) ∧
    (∀ g ∈ images.tail, Deferred doc0 (forEachAt images.tail deferImg doc) g) := by
  have hm1 := oneImage_of_similar hst.similar hm
  have hfold := setup_fold slides images 0 doc hm1.1
  simp only [if_true] at hfold
  have htail : images.tail.Nodup := by
    cases himages : images with
    | nil => simp
    | cons g gs =>
      have := hm.2
      rw [himages] at this
      exact (List.nodup_cons.1 this).2
  have hpt : ∀ j, (forEachAt images.tail deferImg doc)[j]? =
      (doc[j]?).map (fun e => if j ∈ images.tail then deferImg e else e) :=
    fun j => forEachAt_getElem? deferImg images.tail doc j htail
  have hdef : ∀ g ∈ images.tail, Deferred doc0 (forEachAt images.tail deferImg doc) g := by
    intro g hg
    have hgi : g ∈ images := List.mem_of_mem_tail hg
    have hrange := oneImage_in_range hm hgi
    rw [← similar_length hst.similar] at hrange
    have hl := hall g hgi
    unfold Loaded srcAt dataSrcAt at hl
    unfold Deferred srcAt dataSrcAt
    rw [hpt g]
    rw [List.getElem?_eq_getElem hrange] at hl ⊢
    simp only [Option.map_some', Option.getD_some, Option.some_bind, hg, if_true] at hl ⊢
    exact ⟨rfl, by simp [deferImg, hl.1]⟩
  have hkeep : ∀ g, g ∉ images.tail → Loaded doc0 doc g →
      Loaded doc0 (forEachAt images.tail deferImg doc) g := by
    intro g hg hl
    unfold Loaded srcAt dataSrcAt at hl ⊢
    rw [hpt g]
    cases he : doc[g]? with
    | none => rw [he] at hl; exact hl
    | some e =>
      rw [he] at hl
      simpa [hg] using hl
  refine ⟨hfold, ?_, ?_, hdef⟩
  · apply stable_of_pointwise hst (fun j e => if j ∈ images.tail then deferImg e else e) _ _ hpt
    · intro g hg
      by_cases ht : g ∈ images.tail
      · exact Or.inr (hdef g ht)
      · exact Or.inl (hkeep g ht (hall g hg))
    · intro j e
      dsimp only
      split_ifs <;> rfl
    · intro j e
      dsimp only
      split_ifs <;> rfl
  · intro g hg
    have hgi : g ∈ images := List.getElem?_mem hg
    apply hkeep g _ (hall g hgi)
    intro ht
    cases himages : images with
    | nil => rw [himages] at hg; simp at hg
    | cons g0 gs =>
      rw [himages] at hg ht
      simp only [List.getElem?_cons_zero, Option.some.injEq] at hg
      have := hm.2
      rw [himages, hg] at this
      exact (List.nodup_cons.1 this).1 ht

/-! ## Theorems: initialisation and transitions -/

theorem contract_stable {doc : Document} {w : Nat} {slides dots images : List Nat}
    (h : Contract doc w slides dots images) :
    Stable doc doc w slides dots images ∧ ∀ g ∈ images, Loaded doc doc g :=
  ⟨⟨similar_refl doc, h.slides_eq, h.dots_eq, h.ready,
      fun g hg => Or.inl ⟨rfl, h.none_pending g hg⟩⟩,
    fun g hg => ⟨rfl, h.none_pending g hg⟩⟩

theorem settled_lazyState {doc0 : Document} {q : Page} {i w : Nat} {slides dots images : List Nat}
    (hm : OneImageEach doc0 slides images) (h : Settled doc0 q i w slides dots images) :
    LazyState doc0 q i w slides images :=
  ⟨h.1, h.2.1.slides_eq, oneImage_of_similar h.2.1.similar hm, h.2.2.2, h.2.1.lazy⟩

/-- The initialisation of a wrapper under the contract completes and leaves
it settled, the image of the first slide loaded and the others deferred. -/
theorem init_settled (p : Page) (i w : Nat) (slides dots images : List Nat)
    (hs : p.slideshows[i]? = some w) (hidx : p.slideIndices[i]? = some 1)
    (hobs : p.observed.lookup i = none) (hc : Contract p.doc w slides dots images) :
    ∃ p1, initSlideshow p i = .ok p1 ∧ Settled p.doc p1 i w slides dots images ∧
      p1.slideIndices[i]? = some 1 ∧
      (∀ g, images[0]? = some g → Loaded p.doc p1.doc g) ∧
      (∀ g ∈ images.tail, Deferred p.doc p1.doc g) := by
  obtain ⟨hst, hall⟩ := contract_stable hc
  have hw : wrapIndex 1 slides.length 1 = 1 := by
    unfold wrapIndex
    have : ¬ (1 : Int) > slides.length := by have := hc.some_slide; omega
    simp [this]
  have hN := hc.some_slide
  obtain ⟨s, d, g, hsk, hdk, hgk, hok, hR, hset⟩ := showSlides_settled p.doc p 1 i w slides dots
    images 1 hc.one_image hc.as_many hs hidx hst (fun L hL => by rw [hobs] at hL; cases hL)
    (by rw [hw]) (by rw [hw]; omega)
  rw [hw] at hok hset hsk hdk hgk
  have hall1 : ∀ g1 ∈ images, Loaded p.doc (renderDoc p.doc slides dots s d) g1 :=
    fun g1 hg1 => loaded_of_render hR g1 (hall g1 hg1)
  obtain ⟨hfold, hst2, hfirst, hdef⟩ := setup_stable hc.one_image hset.2.1 hall1
  have hi : i < p.slideIndices.length := (List.getElem?_eq_some_iff.1 hidx).1
  have hsetup : setupLazyLoading
      { p with doc := renderDoc p.doc slides dots s d, slideIndices := p.slideIndices.set i 1 } i =
      { p with doc := forEachAt images.tail deferImg (renderDoc p.doc slides dots s d),
               slideIndices := p.slideIndices.set i 1,
               observed := p.observed ++ [(i, slides)] } := by
    unfold setupLazyLoading
    simp only [hs, hset.2.1.slides_eq]
    rw [show slides.enum = slides.enumFrom 0 from rfl] at hfold
    rw [show slides.enum = slides.enumFrom 0 from rfl, hfold]
  have hg0 : images[0]? = some g := by simpa using hgk
  refine ⟨{ p with doc := forEachAt images.tail deferImg (renderDoc p.doc slides dots s d),
                   slideIndices := p.slideIndices.set i 1,
                   observed := p.observed ++ [(i, slides)] },
    by simp only [initSlideshow, hok, hsetup], ?_, getElem?_set_same _ _ _ hi, hfirst, hdef⟩
  refine ⟨hs, hst2, ?_, 1, g, getElem?_set_same _ _ _ hi, le_refl _, by omega, by simpa using hg0,
    hfirst g hg0⟩
  intro L hL
  simp only [List.lookup_append, hobs, Option.none_or, List.lookup_cons_self] at hL
  cases hL
  rfl

/-- On a settled wrapper the observer's callback changes nothing. -/
theorem onIntersect_settled {doc0 : Document} {p : Page} {i w : Nat}
    {slides dots images : List Nat} (hm : OneImageEach doc0 slides images)
    (h : Settled doc0 p i w slides dots images) : onIntersect p i = .ok p := by
  obtain ⟨_, hst, hobs, cur, g, hc, h1, h2, hg, hload⟩ := h
  unfold onIntersect
  cases hl : p.observed.lookup i with
  | none => rfl
  | some L =>
    have hL := hobs L hl
    subst hL
    have hk : (cur - 1).toNat < L.length := by omega
    cases hsk : L[(cur - 1).toNat]? with
    | none =>
      have := List.getElem?_eq_none_iff.1 hsk
      omega
    | some s =>
      obtain ⟨g1, hg1, himg⟩ := oneImage_getElem? (oneImage_of_similar hst.similar hm) hsk
      rw [hg] at hg1
      cases hg1
      simp only [hc, at?_eq _ (show (0 : Int) ≤ cur - 1 by omega), hsk]
      rw [promoteIn_single himg]
      have : p.doc.modify promote g = p.doc := by
        apply modify_same
        intro e he
        apply promote_of_none
        rw [← dataSrcAt_of_getElem? he]
        exact hload.2
      rw [this]

theorem changeSlide_settled {doc0 : Document} {p : Page} {i w : Nat}
    {slides dots images : List Nat} (hm : OneImageEach doc0 slides images)
    (hlen : dots.length = slides.length) (h : Settled doc0 p i w slides dots images) (n : Int) :
    ∃ p1, changeSlide p n i = .ok p1 ∧ Settled doc0 p1 i w slides dots images := by
  obtain ⟨hs, hst, hobs, cur, g, hc, h1, h2, _, _⟩ := h
  have hi : i < p.slideIndices.length := (List.getElem?_eq_some_iff.1 hc).1
  have hr := wrapIndex_self_range (cur + n) slides.length (by omega)
  obtain ⟨_, _, _, _, _, _, hok, _, hset⟩ := showSlides_settled doc0
    { p with slideIndices := p.slideIndices.set i (cur + n) } (cur + n) i w slides dots images
    (cur + n) hm hlen hs (getElem?_set_same _ _ _ hi) hst hobs hr.1 hr.2
  refine ⟨_, ?_, hset⟩
  unfold changeSlide
  rw [hc]
  exact hok

theorem currentSlide_settled {doc0 : Document} {p : Page} {i w : Nat}
    {slides dots images : List Nat} (hm : OneImageEach doc0 slides images)
    (hlen : dots.length = slides.length) (h : Settled doc0 p i w slides dots images) (n : Int) :
    ∃ p1, currentSlide p n i = .ok p1 ∧ Settled doc0 p1 i w slides dots images := by
  obtain ⟨hs, hst, hobs, cur, g, hc, h1, h2, _, _⟩ := h
  have hi : i < p.slideIndices.length := (List.getElem?_eq_some_iff.1 hc).1
  have hr := wrapIndex_self_range n slides.length (by omega)
  obtain ⟨_, _, _, _, _, _, hok, _, hset⟩ := showSlides_settled doc0
    { p with slideIndices := p.slideIndices.set i n } n i w slides dots images
    n hm hlen hs (getElem?_set_same _ _ _ hi) hst hobs hr.1 hr.2
  exact ⟨_, hok, hset⟩

theorem step_settled {doc0 : Document} {p : Page} {i w : Nat}
    {slides dots images : List Nat} (hm : OneImageEach doc0 slides images)
    (hlen : dots.length = slides.length) (h : Settled doc0 p i w slides dots images)
    (e : Event) (he : e.target = i) : Settled doc0 (step p e) i w slides dots images := by
  cases e with
  | change n j =>
    have hji : j = i := he
    subst hji
    obtain ⟨p1, hok, hset⟩ := changeSlide_settled hm hlen h n
    show Settled doc0 (changeSlide p n j).page j w slides dots images
    rw [hok]
    exact hset
  | jump n j =>
    have hji : j = i := he
    subst hji
    obtain ⟨p1, hok, hset⟩ := currentSlide_settled hm hlen h n
    show Settled doc0 (currentSlide p n j).page j w slides dots images
    rw [hok]
    exact hset
  | intersect j =>
    have hji : j = i := he
    subst hji
    have hok := onIntersect_settled hm h
    show Settled doc0 (onIntersect p j).page j w slides dots images
    rw [hok]
    exact h

theorem run_settled {doc0 : Document} {i w : Nat} {slides dots images : List Nat}
    (hm : OneImageEach doc0 slides images) (hlen : dots.length = slides.length) :
    ∀ (events : List Event) (p : Page), (∀ e ∈ events, e.target = i) →
      Settled doc0 p i w slides dots images → Settled doc0 (run p events) i w slides dots images
  | [], _, _, h => h
  | e :: es, p, hev, h =>
    run_settled hm hlen es (step p e) (fun x hx => hev x (List.mem_cons_of_mem _ hx))
      (step_settled hm hlen h e (hev e (List.mem_cons_self _ _)))

/-- On a settled wrapper every render completes, leaves the wrapper settled,
and a second render with the same argument changes nothing more. -/
theorem showSlides_twice {doc0 : Document} {p : Page} {i w : Nat}
    {slides dots images : List Nat} (hm : OneImageEach doc0 slides images)
    (hlen : dots.length = slides.length) (h : Settled doc0 p i w slides dots images) (n : Int) :
    ∃ p1, showSlides p n i = .ok p1 ∧ Settled doc0 p1 i w slides dots images ∧
      showSlides p1 n i = .ok p1 := by
  obtain ⟨hs, hst, hobs, cur, g0, hc, h1, h2, _, _⟩ := h
  have hi : i < p.slideIndices.length := (List.getElem?_eq_some_iff.1 hc).1
  have hr := wrapIndex_in_range n slides.length cur h1 h2
  obtain ⟨s, d, g, hsk, hdk, hgk, hok, hR, hset⟩ := showSlides_settled doc0 p n i w slides dots
    images cur hm hlen hs hc hst hobs hr.1 hr.2
  refine ⟨_, hok, hset, ?_⟩
  have hw := wrapIndex_idem n slides.length cur
  obtain ⟨s1, d1, g1, hsk1, hdk1, hgk1, hok1, hR1, _⟩ := showSlides_settled doc0
    { p with doc := renderDoc p.doc slides dots s d,
             slideIndices := p.slideIndices.set i (wrapIndex n slides.length cur) }
    n i w slides dots images (wrapIndex n slides.length cur) hm hlen hs
    (getElem?_set_same _ _ _ hi) hset.2.1 hobs (by rw [hw]; exact hr.1) (by rw [hw]; exact hr.2)
  rw [hw] at hsk1 hdk1 hgk1 hok1
  rw [hsk] at hsk1
  rw [hdk] at hdk1
  rw [hgk] at hgk1
  cases hsk1
  cases hdk1
  cases hgk1
  have hdoc : renderDoc (renderDoc p.doc slides dots s d) slides dots s d =
      renderDoc p.doc slides dots s d := by
    apply List.ext_getElem?
    intro j
    rw [hR1 j, hR j]
    cases he : p.doc[j]? with
    | none => rfl
    | some e =>
      simp only [Option.map_some', Option.some.injEq]
      apply renderElem_idem slides dots s d g j e (List.getElem?_mem hdk)
      intro hj
      rw [← classAt_of_getElem? he]
      exact hst.ready j hj
  rw [hok1]
  simp only [hdoc, List.set_set]

/-! ## The claims -/

/-- C1 fails on the code: a wrapper with two slides and two dots whose first
dot is marked `class="active-dot dot"` in the markup. After the
`DOMContentLoaded` handler and one click on `.next` the index is 2, the second
slide is shown and the first hidden, but both dots (positions 7 and 8) carry
`active-dot`: line 59 removes the fragment with its leading blank, which the
first dot's class string does not contain, so the dot is not reset as the
comment on line 57 says. -/
theorem c1_two_active_dots :
    (domContentLoaded (initialPage premarked)).isOk = true ∧
    (changeSlide (domContentLoaded (initialPage premarked)).page 1 0).isOk = true ∧
    (changeSlide (domContentLoaded (initialPage premarked)).page 1 0).page.slideIndices = [2] ∧
    querySelectorAll (changeSlide (domContentLoaded (initialPage premarked)).page 1 0).page.doc 0
      isSlide = [1, 3] ∧
    querySelectorAll (changeSlide (domContentLoaded (initialPage premarked)).page 1 0).page.doc 0
      isDot = [7, 8] ∧
    [1, 3].map (isShown (changeSlide (domContentLoaded (initialPage premarked)).page 1 0).page.doc)
      = [false, true] ∧
    [7, 8].map (isActive (changeSlide (domContentLoaded (initialPage premarked)).page 1 0).page.doc)
      = [true, true] := by
  decide

/-- C2: for a wrapper with `N` slides and its index `c` in `[1, N]`,
`changeSlide(d, i)` leaves the index `c + d` when that lies in `[1, N]`, `N` when
it is below 1 and 1 when it is above `N`; for every integer `d`, so for `-1` and
`+1`. With as many dots as slides the call completes. -/
theorem changeSlide_wraps (p : Page) (i w : Nat) (c d : Int)
    (hs : p.slideshows[i]? = some w) (hc : p.slideIndices[i]? = some c)
    (h1 : 1 ≤ c) (h2 : c ≤ (querySelectorAll p.doc w isSlide).length) :
    (changeSlide p d i).page.slideIndices[i]? =
      some (if c + d < 1 then ((querySelectorAll p.doc w isSlide).length : Int)
        else if c + d > (querySelectorAll p.doc w isSlide).length then 1 else c + d) ∧
    ((querySelectorAll p.doc w isDot).length = (querySelectorAll p.doc w isSlide).length →
      (changeSlide p d i).isOk = true) := by
  have hi : i < p.slideIndices.length := (List.getElem?_eq_some_iff.1 hc).1
  constructor
  · unfold changeSlide
    rw [hc]
    rw [showSlides_indices { p with slideIndices := p.slideIndices.set i (c + d) } (c + d) i
      w (c + d) hs (getElem?_set_same _ _ _ hi)]
    simp [List.getElem?_set, hi, wrapIndex]
  · intro hdots
    have hr := wrapIndex_self_range (c + d) (querySelectorAll p.doc w isSlide).length (by omega)
    obtain ⟨_, _, _, _, hok⟩ := showSlides_ok
      { p with slideIndices := p.slideIndices.set i (c + d) } (c + d) i w (c + d) hs
      (getElem?_set_same _ _ _ hi) hr.1 hr.2 (by rw [hdots]; exact hr.2)
    unfold changeSlide
    rw [hc]
    show (showSlides { p with slideIndices := p.slideIndices.set i (c + d) } (c + d) i).isOk = true
    rw [hok]; rfl

/-- C2 on four slides: from 1 stepping -1 gives 4. -/
theorem changeSlide_wraps_witness :
    (changeSlide (domContentLoaded (initialPage gallery4)).page (-1) 0).page.slideIndices[0]? =
      some (if (1 : Int) + -1 < 1
        then ((querySelectorAll (domContentLoaded (initialPage gallery4)).page.doc 0
          isSlide).length : Int)
        else if (1 : Int) + -1 >
          (querySelectorAll (domContentLoaded (initialPage gallery4)).page.doc 0 isSlide).length
        then 1 else 1 + -1) ∧
    ((querySelectorAll (domContentLoaded (initialPage gallery4)).page.doc 0 isDot).length =
        (querySelectorAll (domContentLoaded (initialPage gallery4)).page.doc 0 isSlide).length →
      (changeSlide (domContentLoaded (initialPage gallery4)).page (-1) 0).isOk = true) :=
  changeSlide_wraps (domContentLoaded (initialPage gallery4)).page 0 0 1 (-1)
    (by decide) (by decide) (by decide) (by decide)

/-- C3: for a wrapper with `N` slides, `N >= 1`, `currentSlide(n, i)` leaves
the index `n` when `1 <= n <= N`, `N` when `n < 1` and 1 when `n > N`, for
every integer `n`. With as many dots as slides the call completes. -/
theorem currentSlide_wraps (p : Page) (i w : Nat) (c n : Int)
    (hs : p.slideshows[i]? = some w) (hc : p.slideIndices[i]? = some c)
    (hlen : 1 ≤ (querySelectorAll p.doc w isSlide).length) :
    (currentSlide p n i).page.slideIndices[i]? =
      some (if 1 ≤ n ∧ n ≤ (querySelectorAll p.doc w isSlide).length then n
        else if n < 1 then ((querySelectorAll p.doc w isSlide).length : Int) else 1) ∧
    ((querySelectorAll p.doc w isDot).length = (querySelectorAll p.doc w isSlide).length →
      (currentSlide p n i).isOk = true) := by
  have hi : i < p.slideIndices.length := (List.getElem?_eq_some_iff.1 hc).1
  constructor
  · unfold currentSlide
    rw [showSlides_indices { p with slideIndices := p.slideIndices.set i n } n i
      w n hs (getElem?_set_same _ _ _ hi)]
    simp only [List.set_set, List.getElem?_set, hi, if_true, wrapIndex]
    congr 1
    by_cases a : n < 1
    · have : ¬ (1 ≤ n ∧ n ≤ ((querySelectorAll p.doc w isSlide).length : Int)) := by omega
      simp [a, this]
    · by_cases b : n > ((querySelectorAll p.doc w isSlide).length : Int)
      · have : ¬ (1 ≤ n ∧ n ≤ ((querySelectorAll p.doc w isSlide).length : Int)) := by omega
        simp [a, b, this]
      · have : 1 ≤ n ∧ n ≤ ((querySelectorAll p.doc w isSlide).length : Int) := by omega
        simp [a, b, this]
  · intro hdots
    have hr := wrapIndex_self_range n (querySelectorAll p.doc w isSlide).length (by omega)
    obtain ⟨_, _, _, _, hok⟩ := showSlides_ok
      { p with slideIndices := p.slideIndices.set i n } n i w n hs
      (getElem?_set_same _ _ _ hi) hr.1 hr.2 (by rw [hdots]; exact hr.2)
    unfold currentSlide
    rw [hok]; rfl

/-- C3 on three slides: a jump to 0 gives 3. -/
theorem currentSlide_wraps_witness :
    (currentSlide (initialPage gallery3) 0 0).page.slideIndices[0]? =
      some (if 1 ≤ (0 : Int) ∧ (0 : Int) ≤ (querySelectorAll (initialPage gallery3).doc 0
          isSlide).length then 0
        else if (0 : Int) < 1
          then ((querySelectorAll (initialPage gallery3).doc 0 isSlide).length : Int) else 1) ∧
    ((querySelectorAll (initialPage gallery3).doc 0 isDot).length =
        (querySelectorAll (initialPage gallery3).doc 0 isSlide).length →
      (currentSlide (initialPage gallery3) 0 0).isOk = true) :=
  currentSlide_wraps (initialPage gallery3) 0 0 1 0 (by decide) (by decide) (by decide)

/-- C5 fails on the code: three slides, the `DOMContentLoaded` handler, one
click on `.next`. The index is 2 and the image (position 6) of the third slide,
the next one in wraparound order, still has its pending source `3.jpg`; line 75
computes `nextIndex = 2` and line 76 takes `slides[nextIndex-1]`, the current
slide, whose image (position 4) line 71 has just promoted, so no source is
requested. -/
theorem preload_misses_next_slide :
    (changeSlide (domContentLoaded (initialPage gallery3)).page 1 0).isOk = true ∧
    (changeSlide (domContentLoaded (initialPage gallery3)).page 1 0).page.slideIndices = [2] ∧
    querySelectorAll (changeSlide (domContentLoaded (initialPage gallery3)).page 1 0).page.doc 0
      isSlide = [1, 3, 5] ∧
    [1, 3, 5].map (querySelectorAll
      (changeSlide (domContentLoaded (initialPage gallery3)).page 1 0).page.doc · Element.isImg)
      = [[2], [4], [6]] ∧
    (changeSlide (domContentLoaded (initialPage gallery3)).page 1 0).page.doc.map Element.dataSrc
      = [none, none, none, none, none, none, some "3.jpg".toList, none, none, none, none, none] ∧
    (changeSlide (domContentLoaded (initialPage gallery3)).page 1 0).page.preloads = [] := by
  decide

/-- C7, as stated, fails: on a page whose only wrapper has no slide, the
initial render `showSlides(1, 0)` ends in a `TypeError`, and so does
`changeSlide(-1, 0)`, which leaves the index 0 where it was 1. -/
theorem no_slides_throws :
    showSlides (initialPage emptyShow) 1 0 = .typeError (initialPage emptyShow) ∧
    changeSlide (initialPage emptyShow) (-1) 0 =
      .typeError { initialPage emptyShow with slideIndices := [0] } ∧
    (initialPage emptyShow).slideIndices = [1] := by
  decide

/-- C7, amended: on a wrapper without slides, `showSlides(n, i)` ends in a
`TypeError` at line 63, for every `n`, and so do `changeSlide(d, i)` and
`currentSlide(n, i)`. In the state left, the dots have gone through line 59
and the document is otherwise as it was (no slide has been shown or hidden, no
image touched), the index is 1 for a target above 0 and 0 otherwise, and
nothing has been preloaded. -/
theorem showSlides_without_slides (p : Page) (i w : Nat) (c n : Int)
    (hs : p.slideshows[i]? = some w) (hc : p.slideIndices[i]? = some c)
    (hnone : querySelectorAll p.doc w isSlide = []) :
    showSlides p n i = .typeError
      { p with
        doc := forEachAt (querySelectorAll p.doc w isDot) resetDot p.doc,
        slideIndices := p.slideIndices.set i (if n < 1 then 0 else 1) } ∧
    (changeSlide p n i).isOk = false ∧
    (changeSlide p n i).page.slideIndices = p.slideIndices.set i (if c + n < 1 then 0 else 1) ∧
    (currentSlide p n i).isOk = false ∧
    (currentSlide p n i).page.slideIndices = p.slideIndices.set i (if n < 1 then 0 else 1) := by
  have hi : i < p.slideIndices.length := (List.getElem?_eq_some_iff.1 hc).1
  have key : ∀ (q : Page) (m c0 : Int), q.doc = p.doc → q.slideshows[i]? = some w →
      q.slideIndices[i]? = some c0 →
      showSlides q m i = .typeError
        { q with
          doc := forEachAt (querySelectorAll p.doc w isDot) resetDot p.doc,
          slideIndices := q.slideIndices.set i (if m < 1 then 0 else 1) } := by
    intro q m c0 hqd hqs hqc
    have hqi : i < q.slideIndices.length := (List.getElem?_eq_some_iff.1 hqc).1
    have hidx := set_wrap q.slideIndices i m (querySelectorAll p.doc w isSlide).length c0 hqc
    have hw : wrapIndex m (querySelectorAll p.doc w isSlide).length c0 = if m < 1 then 0 else 1 := by
      unfold wrapIndex
      rw [hnone]
      by_cases a : m < 1
      · simp [a]
      · have b : m > 0 := by omega
        simp [a, b]
    unfold showSlides
    simp only [hqs, hqd, hidx, hw, List.getElem?_set, hqi, if_true]
    simp only [hnone]
    unfold at?
    simp [forEachAt]
  have hfirst := key p n c rfl hs hc
  refine ⟨hfirst, ?_, ?_, ?_, ?_⟩
  · unfold changeSlide
    rw [hc]
    show (showSlides { p with slideIndices := p.slideIndices.set i (c + n) } (c + n) i).isOk = false
    rw [key { p with slideIndices := p.slideIndices.set i (c + n) } (c + n) (c + n) rfl hs
      (getElem?_set_same _ _ _ hi)]
    rfl
  · unfold changeSlide
    rw [hc]
    show (showSlides { p with slideIndices := p.slideIndices.set i (c + n) } (c + n)
      i).page.slideIndices = _
    rw [key { p with slideIndices := p.slideIndices.set i (c + n) } (c + n) (c + n) rfl hs
      (getElem?_set_same _ _ _ hi)]
    simp [Outcome.page]
  · unfold currentSlide
    rw [key { p with slideIndices := p.slideIndices.set i n } n n rfl hs
      (getElem?_set_same _ _ _ hi)]
    rfl
  · unfold currentSlide
    rw [key { p with slideIndices := p.slideIndices.set i n } n n rfl hs
      (getElem?_set_same _ _ _ hi)]
    simp [Outcome.page]

/-- C7, amended, on the page whose only wrapper is empty. -/
theorem showSlides_without_slides_witness :
    showSlides (initialPage emptyShow) 1 0 = .typeError
      { initialPage emptyShow with
        doc := forEachAt (querySelectorAll (initialPage emptyShow).doc 0 isDot) resetDot
          (initialPage emptyShow).doc,
        slideIndices := (initialPage emptyShow).slideIndices.set 0 (if (1 : Int) < 1 then 0 else 1) } ∧
    (changeSlide (initialPage emptyShow) 1 0).isOk = false ∧
    (changeSlide (initialPage emptyShow) 1 0).page.slideIndices =
      (initialPage emptyShow).slideIndices.set 0 (if (1 : Int) + 1 < 1 then 0 else 1) ∧
    (currentSlide (initialPage emptyShow) 1 0).isOk = false ∧
    (currentSlide (initialPage emptyShow) 1 0).page.slideIndices =
      (initialPage emptyShow).slideIndices.set 0 (if (1 : Int) < 1 then 0 else 1) :=
  showSlides_without_slides (initialPage emptyShow) 0 0 1 1 (by decide) (by decide) (by decide)

/-- C8, as stated, fails: a wrapper (position 1 of `slideshows`, element 6)
nested in another one (position 0 of `slideshows`, element 0). After the
`DOMContentLoaded` handler the inner wrapper shows its slide (element 7) and its
dot (element 11) is active; a click on the first dot of the outer wrapper,
`currentSlide(1, 0)`, hides that slide and resets that dot, lines 45-46 on the
outer wrapper returning the inner one's slides and dots too. -/
theorem nested_wrapper_is_changed :
    (domContentLoaded (initialPage nested)).isOk = true ∧
    (domContentLoaded (initialPage nested)).page.slideshows = [0, 6] ∧
    querySelectorAll (domContentLoaded (initialPage nested)).page.doc 6 isSlide = [7] ∧
    querySelectorAll (domContentLoaded (initialPage nested)).page.doc 6 isDot = [11] ∧
    isShown (domContentLoaded (initialPage nested)).page.doc 7 = true ∧
    isActive (domContentLoaded (initialPage nested)).page.doc 11 = true ∧
    (currentSlide (domContentLoaded (initialPage nested)).page 1 0).isOk = true ∧
    isShown (currentSlide (domContentLoaded (initialPage nested)).page 1 0).page.doc 7 = false ∧
    isHidden (currentSlide (domContentLoaded (initialPage nested)).page 1 0).page.doc 7 = true ∧
    isActive (currentSlide (domContentLoaded (initialPage nested)).page 1 0).page.doc 11 = false := by
  decide

/-- C8, amended: for two distinct positions `i` and `j` of `slideshows` whose
wrappers are distinct elements, neither a descendant of the other,
`changeSlide(d, i)` and `currentSlide(n, i)` leave `slideIndices[j]`, the
wrapper at `j` and every element in it (the display of its slides, the class
strings of its dots, the sources and pending sources of its images) as they
were, whether or not the call completes; the queries on the wrapper at `j`
return what they returned before. -/
theorem other_instances_unchanged (p : Page) (i j wi wj : Nat) (d n : Int) (hij : i ≠ j)
    (hi : p.slideshows[i]? = some wi) (hj : p.slideshows[j]? = some wj) (hne : wi ≠ wj)
    (h1 : isDescendant p.doc wi wj = false) (h2 : isDescendant p.doc wj wi = false) :
    ((changeSlide p d i).page.slideIndices[j]? = p.slideIndices[j]? ∧
      (changeSlide p d i).page.slideshows[j]? = some wj ∧
      (∀ k, k = wj ∨ isDescendant p.doc wj k = true →
        (changeSlide p d i).page.doc[k]? = p.doc[k]?) ∧
      ∀ sel : Element → Bool,
        querySelectorAll (changeSlide p d i).page.doc wj sel = querySelectorAll p.doc wj sel) ∧
    ((currentSlide p n i).page.slideIndices[j]? = p.slideIndices[j]? ∧
      (currentSlide p n i).page.slideshows[j]? = some wj ∧
      (∀ k, k = wj ∨ isDescendant p.doc wj k = true →
        (currentSlide p n i).page.doc[k]? = p.doc[k]?) ∧
      ∀ sel : Element → Bool,
        querySelectorAll (currentSlide p n i).page.doc wj sel = querySelectorAll p.doc wj sel) := by
  obtain ⟨a1, b1, _, d1⟩ := changeSlide_under p d i wi hi
  obtain ⟨a2, b2, _, d2⟩ := currentSlide_under p n i wi hi
  obtain ⟨k1, q1⟩ := under_disjoint a1 hne h1 h2
  obtain ⟨k2, q2⟩ := under_disjoint a2 hne h1 h2
  exact ⟨⟨d1 j hij, by rw [b1]; exact hj, k1, q1⟩, ⟨d2 j hij, by rw [b2]; exact hj, k2, q2⟩⟩

/-- C8, amended, on a page with two wrappers side by side: a click on `.next`
and a click on the second dot of the first. -/
theorem other_instances_unchanged_witness :
    ((changeSlide (domContentLoaded (initialPage twoGalleries)).page 1 0).page.slideIndices[1]? =
        (domContentLoaded (initialPage twoGalleries)).page.slideIndices[1]? ∧
      (changeSlide (domContentLoaded (initialPage twoGalleries)).page 1 0).page.slideshows[1]? =
        some 9 ∧
      (∀ k, k = 9 ∨ isDescendant (domContentLoaded (initialPage twoGalleries)).page.doc 9 k = true →
        (changeSlide (domContentLoaded (initialPage twoGalleries)).page 1 0).page.doc[k]? =
          (domContentLoaded (initialPage twoGalleries)).page.doc[k]?) ∧
      ∀ sel : Element → Bool,
        querySelectorAll (changeSlide (domContentLoaded (initialPage twoGalleries)).page 1
          0).page.doc 9 sel =
        querySelectorAll (domContentLoaded (initialPage twoGalleries)).page.doc 9 sel) ∧
    ((currentSlide (domContentLoaded (initialPage twoGalleries)).page 2 0).page.slideIndices[1]? =
        (domContentLoaded (initialPage twoGalleries)).page.slideIndices[1]? ∧
      (currentSlide (domContentLoaded (initialPage twoGalleries)).page 2 0).page.slideshows[1]? =
        some 9 ∧
      (∀ k, k = 9 ∨ isDescendant (domContentLoaded (initialPage twoGalleries)).page.doc 9 k = true →
        (currentSlide (domContentLoaded (initialPage twoGalleries)).page 2 0).page.doc[k]? =
          (domContentLoaded (initialPage twoGalleries)).page.doc[k]?) ∧
      ∀ sel : Element → Bool,
        querySelectorAll (currentSlide (domContentLoaded (initialPage twoGalleries)).page 2
          0).page.doc 9 sel =
        querySelectorAll (domContentLoaded (initialPage twoGalleries)).page.doc 9 sel) :=
  other_instances_unchanged (domContentLoaded (initialPage twoGalleries)).page 0 1 0 9 1 2
    (by decide) (by decide) (by decide) (by decide) (by decide) (by decide)

/-- C6, as stated, fails: a wrapper with two slides (elements 1 and 3), two
dots (7 and 8), one image in each slide (2 and 4) and no `data-src` in the
markup, whose second dot has the class string `dot active-dot-x`. The initial
render turns that string into `dot-x` (line 59), so the element is no dot any
more; the click on `.next` then sets the index to 2, shows the second slide and
ends in a `TypeError` at line 64, before lines 67-72: the image of the current
slide keeps the placeholder and its pending source `2.jpg`. -/
theorem c6_pending_after_throw :
    querySelectorAll (initialPage suffixed).doc 0 isSlide = [1, 3] ∧
    querySelectorAll (initialPage suffixed).doc 0 isDot = [7, 8] ∧
    [1, 3].map (querySelectorAll (initialPage suffixed).doc · Element.isImg) = [[2], [4]] ∧
    (initialPage suffixed).doc.map Element.dataSrc = List.replicate 9 none ∧
    (domContentLoaded (initialPage suffixed)).isOk = true ∧
    querySelectorAll (domContentLoaded (initialPage suffixed)).page.doc 0 isDot = [7] ∧
    (changeSlide (domContentLoaded (initialPage suffixed)).page 1 0).isOk = false ∧
    (changeSlide (domContentLoaded (initialPage suffixed)).page 1 0).page.slideIndices = [2] ∧
    isShown (changeSlide (domContentLoaded (initialPage suffixed)).page 1 0).page.doc 3 = true ∧
    srcAt (changeSlide (domContentLoaded (initialPage suffixed)).page 1 0).page.doc 4
      = placeholder ∧
    dataSrcAt (changeSlide (domContentLoaded (initialPage suffixed)).page 1 0).page.doc 4
      = some "2.jpg".toList := by
  decide

/-- C6, amended: a wrapper at position `i` under the contract (at least one
slide, as many dots as slides, class strings on the dots that line 59 handles,
one image in each slide and none in two slides, no `data-src` in the markup),
its index 1 as line 8 sets it and no observer yet. The initialisation
completes and leaves the image of the first slide with its source and without
a pending source. In the state after the initialisation and any sequence of
events on the wrapper (clicks and observer callbacks), the index lies within
the slides, the image of the slide at the index shows the source it has in the
markup and has no pending source, and every other image shows that or the
placeholder with the markup's source pending; every further render
`showSlides(n, i)` completes and leaves such a state. -/
theorem current_slide_is_loaded (p : Page) (i w : Nat) (slides dots images : List Nat)
    (hs : p.slideshows[i]? = some w) (hidx : p.slideIndices[i]? = some 1)
    (hobs : p.observed.lookup i = none) (hc : Contract p.doc w slides dots images) :
    (initSlideshow p i).isOk = true ∧
    (∀ g, images[0]? = some g → Loaded p.doc (initSlideshow p i).page.doc g) ∧
    ∀ events : List Event, (∀ e ∈ events, e.target = i) →
      LazyState p.doc (run (initSlideshow p i).page events) i w slides images ∧
      ∀ n : Int, (showSlides (run (initSlideshow p i).page events) n i).isOk = true ∧
        LazyState p.doc (showSlides (run (initSlideshow p i).page events) n i).page i w
          slides images := by
  obtain ⟨p1, hinit, hset, _, hfirst, _⟩ := init_settled p i w slides dots images hs hidx hobs hc
  rw [hinit]
  refine ⟨rfl, hfirst, ?_⟩
  intro events hev
  have hq := run_settled hc.one_image hc.as_many events p1 hev hset
  refine ⟨settled_lazyState hc.one_image hq, ?_⟩
  intro n
  obtain ⟨q1, hok, hset1, _⟩ := showSlides_twice hc.one_image hc.as_many hq n
  show (showSlides (run p1 events) n i).isOk = true ∧
    LazyState p.doc (showSlides (run p1 events) n i).page i w slides images
  rw [hok]
  exact ⟨rfl, settled_lazyState hc.one_image hset1⟩

/-- C6, amended, on the three-slide gallery. -/
theorem current_slide_is_loaded_witness :
    (initSlideshow (initialPage gallery3) 0).isOk = true ∧
    (∀ g, [2, 4, 6][0]? = some g →
      Loaded (initialPage gallery3).doc (initSlideshow (initialPage gallery3) 0).page.doc g) ∧
    ∀ events : List Event, (∀ e ∈ events, e.target = 0) →
      LazyState (initialPage gallery3).doc (run (initSlideshow (initialPage gallery3) 0).page events)
        0 0 [1, 3, 5] [2, 4, 6] ∧
      ∀ n : Int, (showSlides (run (initSlideshow (initialPage gallery3) 0).page events) n 0).isOk
          = true ∧
        LazyState (initialPage gallery3).doc
          (showSlides (run (initSlideshow (initialPage gallery3) 0).page events) n 0).page 0 0
          [1, 3, 5] [2, 4, 6] :=
  current_slide_is_loaded (initialPage gallery3) 0 0 [1, 3, 5] [9, 10, 11] [2, 4, 6]
    (by decide) (by decide) (by decide)
    ⟨by decide, by decide, by decide, by decide, by decide, by decide, by decide⟩

/-- C9, as stated, fails: a wrapper with two slides and two dots whose second
dot (element 8) has the class string `dot active-dot active-dot active-dot`.
In the state the `DOMContentLoaded` handler leaves, `showSlides(1, 0)` leaves
that dot as `dot active-dot`, and a second `showSlides(1, 0)` leaves it as
`dot`: line 59 removes one occurrence a time. -/
theorem c9_second_render_differs :
    (domContentLoaded (initialPage repeated)).isOk = true ∧
    (showSlides (domContentLoaded (initialPage repeated)).page 1 0).isOk = true ∧
    classAt (showSlides (domContentLoaded (initialPage repeated)).page 1 0).page.doc 8
      = "dot active-dot".toList ∧
    classAt (showSlides (showSlides (domContentLoaded (initialPage repeated)).page 1 0).page 1
      0).page.doc 8 = "dot".toList ∧
    showSlides (showSlides (domContentLoaded (initialPage repeated)).page 1 0).page 1 0 ≠
      showSlides (domContentLoaded (initialPage repeated)).page 1 0 := by
  decide

/-- C9, amended: a wrapper at position `i` under the contract (at least one
slide, as many dots as slides, class strings on the dots that line 59 handles,
one image in each slide and none in two slides, no `data-src` in the markup),
its index 1 as line 8 sets it and no observer yet. In the state after the
initialisation and any sequence of events on the wrapper (clicks and observer
callbacks), for every `n`, `showSlides(n, i)` completes and a second
`showSlides(n, i)` ends as the first did, with the same state: the indices, the
display of the slides, the class strings of the dots, the sources and pending
sources of the images, and the sources requested. -/
theorem showSlides_idempotent (p : Page) (i w : Nat) (slides dots images : List Nat)
    (hs : p.slideshows[i]? = some w) (hidx : p.slideIndices[i]? = some 1)
    (hobs : p.observed.lookup i = none) (hc : Contract p.doc w slides dots images)
    (events : List Event) (hev : ∀ e ∈ events, e.target = i) (n : Int) :
    (showSlides (run (initSlideshow p i).page events) n i).isOk = true ∧
    showSlides (showSlides (run (initSlideshow p i).page events) n i).page n i =
      showSlides (run (initSlideshow p i).page events) n i := by
  obtain ⟨p1, hinit, hset, _⟩ := init_settled p i w slides dots images hs hidx hobs hc
  rw [hinit]
  have hq := run_settled hc.one_image hc.as_many events p1 hev hset
  obtain ⟨q1, hok, _, hagain⟩ := showSlides_twice hc.one_image hc.as_many hq n
  show (showSlides (run p1 events) n i).isOk = true ∧
    showSlides (showSlides (run p1 events) n i).page n i = showSlides (run p1 events) n i
  rw [hok]
  exact ⟨rfl, hagain⟩

/-- C9, amended, on the three-slide gallery: two clicks and a callback, then
the render of slide 5. -/
theorem showSlides_idempotent_witness :
    (showSlides (run (initSlideshow (initialPage gallery3) 0).page
        [.change 1 0, .intersect 0, .jump 3 0]) 5 0).isOk = true ∧
    showSlides (showSlides (run (initSlideshow (initialPage gallery3) 0).page
        [.change 1 0, .intersect 0, .jump 3 0]) 5 0).page 5 0 =
      showSlides (run (initSlideshow (initialPage gallery3) 0).page
        [.change 1 0, .intersect 0, .jump 3 0]) 5 0 :=
  showSlides_idempotent (initialPage gallery3) 0 0 [1, 3, 5] [9, 10, 11] [2, 4, 6]
    (by decide) (by decide) (by decide)
    ⟨by decide, by decide, by decide, by decide, by decide, by decide, by decide⟩
    [.change 1 0, .intersect 0, .jump 3 0] (by decide) 5

/-- C4: when the path has a non-empty segment and `s` is the last one, the
handler keeps the links in place with their hrefs, and a link carries
`aria-current="page"` afterwards exactly when its href is `s` or `s` followed
by `.html`, whatever it carried before; a slash appended to the path changes
nothing. When the path has no non-empty segment, every link whose href is
`index.html` is marked. -/
theorem highlightNav_marks (pathname : Str) (navLinks : List NavLink) :
    (highlightNav pathname navLinks).length = navLinks.length ∧
    (∀ s : Str, ((pathname.splitOn '/').filter (fun segment => segment ≠ [])).getLast? = some s →
      ∀ (k : Nat) (link : NavLink), navLinks[k]? = some link →
        ∃ marked, (highlightNav pathname navLinks)[k]? = some marked ∧ marked.href = link.href ∧
          (marked.ariaCurrent = some "page".toList ↔
            link.href = some s ∨ link.href = some (s ++ ".html".toList))) ∧
    highlightNav (pathname ++ "/".toList) navLinks = highlightNav pathname navLinks ∧
    ((pathname.splitOn '/').filter (fun segment => segment ≠ []) = [] →
      ∀ (k : Nat) (link : NavLink), navLinks[k]? = some link →
        link.href = some "index.html".toList →
        ∃ marked, (highlightNav pathname navLinks)[k]? = some marked ∧ marked.href = link.href ∧
          marked.ariaCurrent = some "page".toList) := by
  refine ⟨by simp [highlightNav], ?_, ?_, ?_⟩
  · intro s hlast k link hk
    obtain ⟨hpage, hne⟩ := currentPage_of_last pathname s hlast
    refine ⟨highlightLink (currentPage pathname) link, by simp [highlightNav, hk],
      highlightLink_href _ _, ?_⟩
    rw [highlightLink_isCurrent, hpage, matchesPage_iff_of_ne_nil _ hne]
  · unfold highlightNav currentPage
    rw [pathSegments_trailing_slash]
  · intro hnil k link hk hhref
    have hpage := currentPage_of_nil pathname hnil
    refine ⟨highlightLink (currentPage pathname) link, by simp [highlightNav, hk],
      highlightLink_href _ _, ?_⟩
    rw [highlightLink_isCurrent, hpage, hhref]
    decide

/-- C4 on the paths `/blog/` and `/`. -/
theorem highlightNav_marks_witness :
    (∃ marked, (highlightNav "/blog/".toList
        [⟨some "blog.html".toList, none⟩, ⟨some "index.html".toList, some "page".toList⟩])[1]?
        = some marked ∧ marked.href = some "index.html".toList ∧
      (marked.ariaCurrent = some "page".toList ↔
        some "index.html".toList = some "blog".toList ∨
        some "index.html".toList = some ("blog".toList ++ ".html".toList))) ∧
    (∃ marked, (highlightNav "/".toList [⟨some "index.html".toList, none⟩])[0]? = some marked ∧
      marked.href = some "index.html".toList ∧ marked.ariaCurrent = some "page".toList) :=
  ⟨(highlightNav_marks "/blog/".toList
      [⟨some "blog.html".toList, none⟩, ⟨some "index.html".toList, some "page".toList⟩]).2.1
      "blog".toList (by decide) 1 ⟨some "index.html".toList, some "page".toList⟩ rfl,
   (highlightNav_marks "/".toList [⟨some "index.html".toList, none⟩]).2.2.2
      (by decide) 0 ⟨some "index.html".toList, none⟩ rfl rfl⟩

/-- C10, as stated, fails: on the path `/`, the page name line 7 derives is
`index.html`, not `index`, and a link whose href is `index` is left unmarked
(while `index.html` is marked). -/
theorem root_path_leaves_index_unmarked :
    pathSegments "/".toList = [] ∧ currentPage "/".toList = "index.html".toList ∧
    highlightNav "/".toList [⟨some "index".toList, none⟩, ⟨some "index.html".toList, none⟩] =
      [⟨some "index".toList, none⟩, ⟨some "index.html".toList, some "page".toList⟩] := by
  decide

/-- C10, amended: when the path has no non-empty segment, the page name
derived is `index.html`, and a link is marked current afterwards exactly when
its href is `index.html` or `index.html.html`. -/
theorem highlightNav_root (pathname : Str) (navLinks : List NavLink)
    (hnil : (pathname.splitOn '/').filter (fun segment => segment ≠ []) = []) :
    currentPage pathname = "index.html".toList ∧
    ∀ (k : Nat) (link : NavLink), navLinks[k]? = some link →
      ∃ marked, (highlightNav pathname navLinks)[k]? = some marked ∧ marked.href = link.href ∧
        (marked.ariaCurrent = some "page".toList ↔
          link.href = some "index.html".toList ∨ link.href = some "index.html.html".toList) := by
  have hpage := currentPage_of_nil pathname hnil
  refine ⟨hpage, ?_⟩
  intro k link hk
  refine ⟨highlightLink (currentPage pathname) link, by simp [highlightNav, hk],
    highlightLink_href _ _, ?_⟩
  rw [highlightLink_isCurrent, hpage, matchesPage_iff_of_ne_nil _ (by decide)]
  rfl

/-- C10, amended, on the empty path. -/
theorem highlightNav_root_witness :
    currentPage [] = "index.html".toList ∧
    ∀ (k : Nat) (link : NavLink), [(⟨some "index".toList, none⟩ : NavLink)][k]? = some link →
      ∃ marked, (highlightNav [] [⟨some "index".toList, none⟩])[k]? = some marked ∧
        marked.href = link.href ∧
        (marked.ariaCurrent = some "page".toList ↔
          link.href = some "index.html".toList ∨ link.href = some "index.html.html".toList) :=
  highlightNav_root [] [⟨some "index".toList, none⟩] (by decide)

end Eacarsoy
